import Mathlib

/-!
external-dns-bunny: zone resolution, record translation and change application.

A shallow embedding of `internal/api/client.go`, `internal/api/dns.go` and
`internal/dnsprovider/provider.go`.

Conventions of the embedding

* Go `string` is Lean `String`; `int64` is `Int`; `uint8` is `Nat`; the two `float64`
  fields of a record are carried as their IEEE-754 bit pattern (`Nat`), they are never
  computed with.
* A Go `error` result is `Option Err` (`none` is `nil`); a `(value, error)` result is
  `Except Err value`.
* The network is a parameter: a `Transport` answers every request, and may look at the
  requests issued before it.  Every function that can reach `doRequest` threads the
  `Trace` of requests issued so far and returns the extended trace.
* The public-suffix library is a parameter `etld : String → Except String String`.
* A Go `range` loop with an early `return` is a structural recursion over the list.
* Strings are compared and cut character by character.  The one slice that removes a
  single byte, `subdomain[0 : len(subdomain)-1]`, removes the last character; it is
  reached with a string ending in `.` whenever the registrable domain is a suffix of
  the hostname that starts after a dot.
-/

namespace Bunny

deriving instance DecidableEq for Except

/-! ## Errors -/

/-- Go `error` values met by the program.  `ErrRecordNotFound` and `ErrUnauthorized`
are the two package-level sentinels; `new` is an error built by `errors.New` or
`fmt.Errorf` inside the program; `ext` is an error handed over by a library
(`net/http`, `io`, `encoding/json`, `strconv`, `publicsuffix`). -/
inductive Err where
  | ErrRecordNotFound
  | ErrUnauthorized
  | new (msg : String)
  | ext (msg : String)
deriving DecidableEq, Repr

/-- Go `errors.Is(err, ErrRecordNotFound)`: none of the errors is wrapped, so this is
identity with the sentinel. -/
def Err.isRecordNotFound : Err → Bool
  | .ErrRecordNotFound => true
  | _ => false

/-! ## Data model (`internal/api/dns.go`) -/

/-- Go `api.DnsRecord`.  The field `Type` is spelled `Type_`, `Type` being reserved. -/
structure DnsRecord where
  Zone : Int := 0
  Id : Int := 0
  Type_ : Nat := 0
  Ttl : Int := 0
  Value : String := ""
  PullzoneId : Int := 0
  Name : String := ""
  Weight : Int := 0
  Priority : Int := 0
  Port : Int := 0
  Flags : Int := 0
  Tag : String := ""
  Accelerated : Bool := false
  AcceleratedPullZoneId : Int := 0
  LinkName : String := ""
  MonitorType : Nat := 0
  GeolocationLatitude : Nat := 0
  GeolocationLongitude : Nat := 0
  LatencyZone : String := ""
  SmartRoutingType : Nat := 0
  Disabled : Bool := false
  Comment : String := ""
deriving DecidableEq, Repr

/-- Go `api.DnsZone`. -/
structure DnsZone where
  Id : Int := 0
  Domain : String := ""
  CustomNameserversEnabled : Bool := false
  Nameserver1 : String := ""
  Nameserver2 : String := ""
  SoaEmail : String := ""
  LoggingEnabled : Bool := false
  LoggingIPAnonymizationEnabled : Bool := false
  LogAnonymizationType : Nat := 0
  Records : List DnsRecord := []
deriving DecidableEq, Repr

/-- Go `api.DNSRecordTypeMap`, as its set of entries. -/
def DNSRecordTypeMap : List (String × Nat) :=
  [("A", 0), ("AAAA", 1), ("CNAME", 2), ("TXT", 3), ("PZ", 7), ("SRV", 8), ("NS", 12)]

/-- Go two-result map read `v, ok := DNSRecordTypeMap[k]`. -/
def typeCode (k : String) : Option Nat :=
  DNSRecordTypeMap.lookup k

/-- Go one-result map read `DNSRecordTypeMap[k]`: the zero value when the key is absent. -/
def typeCodeOrZero (k : String) : Nat :=
  (typeCode k).getD 0

/-! ## The fields of `endpoint.Endpoint` and `plan.Changes` the provider touches -/

/-- Go `endpoint.Endpoint` (external-dns), restricted to the four fields the provider
reads or writes. -/
structure Endpoint where
  DNSName : String := ""
  Targets : List String := []
  RecordType : String := ""
  RecordTTL : Int := 0
deriving DecidableEq, Repr

/-- Go `plan.Changes` (external-dns). -/
structure Changes where
  Create : List Endpoint := []
  UpdateOld : List Endpoint := []
  UpdateNew : List Endpoint := []
  Delete : List Endpoint := []
deriving DecidableEq, Repr

/-! ## `strconv.ParseInt(s, 10, 64)` -/

/-- Value of a decimal digit, `none` for any other character. -/
def digitVal (c : Char) : Option Nat :=
  if 48 ≤ c.toNat ∧ c.toNat ≤ 57 then some (c.toNat - 48) else none

/-- Left-to-right accumulation of decimal digits; `none` at the first non-digit. -/
def parseDigits : List Char → Nat → Option Nat
  | [], acc => some acc
  | c :: cs, acc =>
    match digitVal c with
    | none => none
    | some d => parseDigits cs (acc * 10 + d)

/-- Modelled from the spec: `strconv.ParseInt(s, 10, 64)` of the Go standard library is
not part of the sources; the spec asks that the link "parse as a 64-bit integer".  The
model is the library's base-10 grammar: an optional sign, then one or more decimal
digits, the value within `[-2^63, 2^63 - 1]`; anything else is an error.  The text of
the library's error is abbreviated. -/
def ParseInt (s : String) : Except Err Int :=
  match s.data with
  | [] => .error (.ext "strconv.ParseInt: invalid syntax")
  | c :: cs =>
    let neg := c = '-'
    let digits := if c = '+' ∨ c = '-' then cs else c :: cs
    match digits with
    | [] => .error (.ext "strconv.ParseInt: invalid syntax")
    | d :: ds =>
      match parseDigits (d :: ds) 0 with
      | none => .error (.ext "strconv.ParseInt: invalid syntax")
      | some un =>
        if ¬ neg ∧ un ≥ 2 ^ 63 then .error (.ext "strconv.ParseInt: value out of range")
        else if neg ∧ un > 2 ^ 63 then .error (.ext "strconv.ParseInt: value out of range")
        else .ok (if neg then - (un : Int) else (un : Int))

/-! ## `convertDnsRecordForApiSave` -/

/-- Go `convertDnsRecordForApiSave`. -/
def convertDnsRecordForApiSave (record : DnsRecord) : Except Err DnsRecord :=
  if record.Type_ = typeCodeOrZero "PZ" then
    if record.LinkName.length = 0 then
      .error (.new "linkname should contain the Pullzone ID")
    else
      match ParseInt record.LinkName with
      | .error err => .error err
      | .ok id => .ok { record with PullzoneId := id, LinkName := "", Value := "" }
  else
    .ok record

/-! ## The transport and `doRequest` (`internal/api/client.go`) -/

/-- The three requests the provider can send, by method and URL:
`GET {apiUrl}/dnszone?search={domain}`, `PUT {apiUrl}/dnszone/{zoneId}/records` with
the JSON of `body`, `DELETE {apiUrl}/dnszone/{zoneId}/records/{id}`. -/
inductive Request where
  | searchZones (domain : String)
  | putRecord (zoneId : Int) (body : DnsRecord)
  | deleteRecord (zoneId : Int) (id : Int)
deriving DecidableEq, Repr

/-- Whether a request is a record creation. -/
def Request.isPut : Request → Bool
  | .putRecord _ _ => true
  | _ => false

/-- Whether a request is a record deletion. -/
def Request.isDelete : Request → Bool
  | .deleteRecord _ _ => true
  | _ => false

/-- What the program reads of a Go `http.Response`: the status code, the status line,
and the outcome of reading the body and decoding it as `{"Items": [...]}`. -/
structure Response where
  StatusCode : Nat := 200
  Status : String := ""
  Items : Except String (List DnsZone) := .ok []

/-- The requests issued so far, oldest first. -/
abbrev Trace := List Request

/-- The remote side with `http.NewRequest` and `httpClient.Do`: for the requests issued
before and the present request, a library error or a response. -/
abbrev Transport := Trace → Request → Except String Response

/-- Go `Client.doRequest`. -/
def doRequest (net : Transport) (tr : Trace) (rq : Request) : Except Err Response × Trace :=
  match net tr rq with
  | .error e => (.error (.ext e), tr ++ [rq])
  | .ok resp =>
    if resp.StatusCode = 401 then (.error .ErrUnauthorized, tr ++ [rq])
    else (.ok resp, tr ++ [rq])

/-! ## Zone search (`internal/api/dns.go`) -/

/-- The loop of `Client.searchDnsZone` over `result.Items`. -/
def firstWithDomain (domain : String) : List DnsZone → Option DnsZone
  | [] => none
  | record :: rest => if record.Domain = domain then some record else firstWithDomain domain rest

/-- Go `Client.searchDnsZone`. -/
def searchDnsZone (net : Transport) (tr : Trace) (domain : String) :
    Except Err DnsZone × Trace :=
  match doRequest net tr (.searchZones domain) with
  | (.error err, tr1) => (.error err, tr1)
  | (.ok resp, tr1) =>
    if resp.StatusCode ≠ 200 then (.error (.new resp.Status), tr1)
    else
      match resp.Items with
      | .error e => (.error (.ext e), tr1)
      | .ok items =>
        match firstWithDomain domain items with
        | some record => (.ok record, tr1)
        | none => (.error (.new ("DNS zone \"" ++ domain ++ "\" not found")), tr1)

/-- Go `strings.HasSuffix`. -/
def HasSuffix (s suffix : String) : Bool :=
  suffix.data.isSuffixOf s.data

/-- Go `strings.CutSuffix`. -/
def CutSuffix (s suffix : String) : String × Bool :=
  if HasSuffix s suffix then (⟨s.data.take (s.data.length - suffix.data.length)⟩, true)
  else (s, false)

/-- Go `s[0 : len(s)-1]`. -/
def dropLast1 (s : String) : String :=
  ⟨s.data.dropLast⟩

/-- Go `Client.SearchDnsZone`; `etld` is `publicsuffix.EffectiveTLDPlusOne`. -/
def SearchDnsZone (etld : String → Except String String) (net : Transport) (tr : Trace)
    (hostname : String) : Except Err (String × DnsZone) × Trace :=
  match etld hostname with
  | .error e => (.error (.ext e), tr)
  | .ok eTLDp1 =>
    let cut : Except Err String :=
      if hostname ≠ eTLDp1 then
        match CutSuffix hostname eTLDp1 with
        | (_, false) => .error .ErrRecordNotFound
        | (subdomain, true) => .ok (dropLast1 subdomain)
      else .ok ""
    match cut with
    | .error err => (.error err, tr)
    | .ok subdomain =>
      match searchDnsZone net tr eTLDp1 with
      | (.error _, tr1) => (.error (.new "no DnsZone found"), tr1)
      | (.ok zone, tr1) => (.ok (subdomain, zone), tr1)

/-! ## Record creation and deletion (`internal/api/dns.go`) -/

/-- Whether a `float64` bit pattern is a NaN or an infinity. -/
def floatNotFinite (bits : Nat) : Bool :=
  (bits / 2 ^ 52) % 2 ^ 11 = 2047

/-- Go `json.Marshal` on a `DnsRecord`: it fails only on a non-finite float field. -/
def jsonMarshal (data : DnsRecord) : Except Err DnsRecord :=
  if floatNotFinite data.GeolocationLatitude ∨ floatNotFinite data.GeolocationLongitude then
    .error (.ext "json: unsupported value")
  else .ok data

/-- Go `Client.CreateDnsRecord`. -/
def CreateDnsRecord (net : Transport) (tr : Trace) (data : DnsRecord) : Option Err × Trace :=
  let dnsZoneId := data.Zone
  if dnsZoneId = 0 then (some (.new "zone is required"), tr)
  else
    match convertDnsRecordForApiSave data with
    | .error err => (some err, tr)
    | .ok data =>
      match jsonMarshal data with
      | .error err => (some err, tr)
      | .ok body =>
        match doRequest net tr (.putRecord dnsZoneId body) with
        | (.error err, tr1) => (some err, tr1)
        | (.ok resp, tr1) =>
          if resp.StatusCode ≠ 201 then
            (some (.new ("create DNS record failed with " ++ resp.Status)), tr1)
          else (none, tr1)

/-- Go `Client.DeleteDnsRecord`. -/
def DeleteDnsRecord (net : Transport) (tr : Trace) (zoneId : Int) (id : Int) :
    Option Err × Trace :=
  match doRequest net tr (.deleteRecord zoneId id) with
  | (.error err, tr1) => (some err, tr1)
  | (.ok resp, tr1) =>
    if resp.StatusCode = 404 then (some .ErrRecordNotFound, tr1)
    else if resp.StatusCode ≠ 204 then (some (.new resp.Status), tr1)
    else (none, tr1)

/-! ## The provider (`internal/dnsprovider/provider.go`) -/

/-- Go `strings.TrimSuffix`. -/
def TrimSuffix (s suffix : String) : String :=
  if HasSuffix s suffix then ⟨s.data.take (s.data.length - suffix.data.length)⟩ else s

/-- Go `strings.Split(s, ".")` on the characters of `s`: the pieces between the dots,
one piece more than there are dots. -/
def splitDots : List Char → List (List Char)
  | [] => [[]]
  | c :: cs =>
    if c = '.' then [] :: splitDots cs
    else
      match splitDots cs with
      | [] => [[c]]
      | label :: rest => (c :: label) :: rest

/-- The label check of `endpoint.NewEndpointWithTTL`: some label of `dnsName` is longer
than 63 bytes. -/
def labelTooLong (dnsName : String) : Bool :=
  (splitDots dnsName.data).any (fun label => decide ((String.mk label).utf8ByteSize > 63))

/-- Go `endpoint.NewEndpointWithTTL` of the external-dns library, which is not part of
the sources: it removes one trailing dot from every target, returns nil when a label of
the name is longer than 63 bytes, and otherwise returns the endpoint with the name less
one trailing dot, the cleaned targets, the type and the TTL. -/
def NewEndpointWithTTL (dnsName recordType : String) (ttl : Int) (targets : List String) :
    Option Endpoint :=
  let cleanTargets := targets.map (fun target => TrimSuffix target ".")
  if labelTooLong dnsName then none
  else
    some { DNSName := TrimSuffix dnsName ".", Targets := cleanTargets,
           RecordType := recordType, RecordTTL := ttl }

/-- The `range` loop of `convertRecordToEndpoint` over the type map, in the iteration
order `order`: the key of the first entry whose code is `ty`, or `""`. -/
def findTypeName (ty : Nat) : List (String × Nat) → String
  | [] => ""
  | (k, v) :: rest => if v = ty then k else findTypeName ty rest

/-- Go `convertRecordToEndpoint`; `order` is the order in which the `range` statement
visits the entries of `DNSRecordTypeMap`, which Go leaves unspecified. -/
def convertRecordToEndpoint (order : List (String × Nat)) (zone : DnsZone)
    (record : DnsRecord) : Option Endpoint :=
  let name := if record.Name = "" then zone.Domain else record.Name ++ "." ++ zone.Domain
  let recordType := findTypeName record.Type_ order
  if recordType = "" then none
  else NewEndpointWithTTL name recordType record.Ttl [record.Value]

/-- The loop of `endpointCreate` over `endpoint.Targets`. -/
def createTargets (net : Transport) (zone : DnsZone) (subdomain : String) (recordType : Nat)
    (ttl : Int) : List String → Trace → Option Err × Trace
  | [], tr => (none, tr)
  | target :: rest, tr =>
    let r : DnsRecord :=
      { Zone := zone.Id, Name := subdomain, Type_ := recordType, Value := target, Ttl := ttl }
    match CreateDnsRecord net tr r with
    | (some err, tr1) => (some err, tr1)
    | (none, tr1) => createTargets net zone subdomain recordType ttl rest tr1

/-- Go `bunnyProvider.endpointCreate`. -/
def endpointCreate (etld : String → Except String String) (net : Transport)
    (endpoint : Endpoint) (tr : Trace) : Option Err × Trace :=
  match SearchDnsZone etld net tr endpoint.DNSName with
  | (.error err, tr1) => (some err, tr1)
  | (.ok (subdomain, zone), tr1) =>
    match typeCode endpoint.RecordType with
    | none => (some (.new ("Unsupported DNS record type: " ++ endpoint.RecordType)), tr1)
    | some recordType =>
      let ttl := if endpoint.RecordTTL < 1 then 300 else endpoint.RecordTTL
      createTargets net zone subdomain recordType ttl endpoint.Targets tr1

/-- The inner loop of `endpointDelete`, over `zone.Records`, for one target. -/
def deleteRecords (net : Transport) (zone : DnsZone) (subdomain : String) (recordType : Nat)
    (target : String) : List DnsRecord → Trace → Option Err × Trace
  | [], tr => (none, tr)
  | record :: rest, tr =>
    if record.Name ≠ subdomain ∨ record.Type_ ≠ recordType ∨ record.Value ≠ target then
      deleteRecords net zone subdomain recordType target rest tr
    else
      match DeleteDnsRecord net tr zone.Id record.Id with
      | (some err, tr1) =>
        if err.isRecordNotFound then
          deleteRecords net zone subdomain recordType target rest tr1
        else (some err, tr1)
      | (none, tr1) => deleteRecords net zone subdomain recordType target rest tr1

/-- The outer loop of `endpointDelete`, over `endpoint.Targets`. -/
def deleteTargets (net : Transport) (zone : DnsZone) (subdomain : String) (recordType : Nat) :
    List String → Trace → Option Err × Trace
  | [], tr => (none, tr)
  | target :: rest, tr =>
    match deleteRecords net zone subdomain recordType target zone.Records tr with
    | (some err, tr1) => (some err, tr1)
    | (none, tr1) => deleteTargets net zone subdomain recordType rest tr1

/-- Go `bunnyProvider.endpointDelete`. -/
def endpointDelete (etld : String → Except String String) (net : Transport)
    (endpoint : Endpoint) (tr : Trace) : Option Err × Trace :=
  match typeCode endpoint.RecordType with
  | none => (none, tr)
  | some recordType =>
    match SearchDnsZone etld net tr endpoint.DNSName with
    | (.error err, tr1) => (some err, tr1)
    | (.ok (subdomain, zone), tr1) =>
      deleteTargets net zone subdomain recordType endpoint.Targets tr1

/-- One loop of `ApplyChanges`: `for _, change := range xs` with the body
`err := f(change); if err != nil { return err }`. -/
def forEach {α : Type} (f : α → Trace → Option Err × Trace) :
    List α → Trace → Option Err × Trace
  | [], tr => (none, tr)
  | change :: rest, tr =>
    match f change tr with
    | (some err, tr1) => (some err, tr1)
    | (none, tr1) => forEach f rest tr1

/-- Go `bunnyProvider.ApplyChanges`. -/
def ApplyChanges (etld : String → Except String String) (net : Transport)
    (changes : Changes) (tr : Trace) : Option Err × Trace :=
  match forEach (endpointDelete etld net) changes.Delete tr with
  | (some err, tr1) => (some err, tr1)
  | (none, tr1) =>
    match forEach (endpointDelete etld net) changes.UpdateOld tr1 with
    | (some err, tr2) => (some err, tr2)
    | (none, tr2) =>
      match forEach (endpointCreate etld net) changes.Create tr2 with
      | (some err, tr3) => (some err, tr3)
      | (none, tr3) =>
        match forEach (endpointCreate etld net) changes.UpdateNew tr3 with
        | (some err, tr4) => (some err, tr4)
        | (none, tr4) => (none, tr4)

/-! ## Vocabulary for statements about runs -/

/-- One endpoint of a batch with the path that handles it. -/
inductive Step where
  | delete (e : Endpoint)
  | create (e : Endpoint)
deriving DecidableEq, Repr

/-- The endpoints of a batch in the order `ApplyChanges` visits them. -/
def Changes.steps (c : Changes) : List Step :=
  c.Delete.map .delete ++ c.UpdateOld.map .delete ++ c.Create.map .create ++
    c.UpdateNew.map .create

/-- Processing of one step: `endpointDelete` or `endpointCreate`. -/
def runStep (etld : String → Except String String) (net : Transport) :
    Step → Trace → Option Err × Trace
  | .delete e => endpointDelete etld net e
  | .create e => endpointCreate etld net e

/-- Every element of `xs` is processed by `f`, in list order, each without error,
taking the trace from `tr` to `tr2`. -/
def AllSucceed {α : Type} (f : α → Trace → Option Err × Trace) : List α → Trace → Trace → Prop
  | [], tr, tr2 => tr2 = tr
  | x :: xs, tr, tr2 => ∃ tr1, f x tr = (none, tr1) ∧ AllSucceed f xs tr1 tr2

/-! ## Fixtures used by the worked examples -/

/-- A public-suffix function good enough for the examples: the names under
`example.com` have `example.com` as registrable domain, a name with an empty label
is refused, any other name is its own registrable domain. -/
def etldEx (h : String) : Except String String :=
  if h = "" ∨ h = "com" then
    .error ("publicsuffix: cannot derive eTLD+1 for domain \"" ++ h ++ "\"")
  else if h = "example.com" ∨ HasSuffix h ".example.com" then .ok "example.com"
  else .ok h

/-- The zone `example.com` with identifier 5 and three records. -/
def zoneEx : DnsZone :=
  { Id := 5, Domain := "example.com",
    Records := [
      { Id := 11, Type_ := 0, Name := "www", Value := "1.2.3.4", Ttl := 60 },
      { Id := 12, Type_ := 0, Name := "www", Value := "9.9.9.9", Ttl := 60 },
      { Id := 13, Type_ := 0, Name := "www", Value := "1.2.3.4", Ttl := 60 } ] }

/-- A remote that knows `zoneEx` (and a look-alike zone listed before it), creates every
record (201) and deletes every record (204). -/
def netOk : Transport := fun _ rq =>
  match rq with
  | .searchZones _ =>
    .ok { StatusCode := 200, Status := "200 OK",
          Items := .ok [{ Id := 4, Domain := "notexample.com" }, zoneEx] }
  | .putRecord _ _ => .ok { StatusCode := 201, Status := "201 Created" }
  | .deleteRecord _ _ => .ok { StatusCode := 204, Status := "204 No Content" }

/-- A remote that knows only `zoneEx`, refuses (500) to create a record whose value is
`bad`, answers 404 to the deletion of record `gone` and 500 to that of record `broken`. -/
def netEx (bad : String) (gone broken : Int) : Transport := fun _ rq =>
  match rq with
  | .searchZones _ => .ok { StatusCode := 200, Status := "200 OK", Items := .ok [zoneEx] }
  | .putRecord _ body =>
    if body.Value = bad then .ok { StatusCode := 500, Status := "500 Internal Server Error" }
    else .ok { StatusCode := 201, Status := "201 Created" }
  | .deleteRecord _ id =>
    if id = gone then .ok { StatusCode := 404, Status := "404 Not Found" }
    else if id = broken then .ok { StatusCode := 500, Status := "500 Internal Server Error" }
    else .ok { StatusCode := 204, Status := "204 No Content" }

/-! ## Auxiliary facts -/

theorem string_length_eq_zero (s : String) : s.length = 0 ↔ s = "" := by
  constructor
  · intro h
    obtain ⟨l⟩ := s
    have h1 : l.length = 0 := h
    have h2 : l = [] := List.length_eq_zero.mp h1
    subst h2
    rfl
  · intro h
    subst h
    rfl

theorem typeCodeOrZero_PZ : typeCodeOrZero "PZ" = 7 := by decide

theorem parseInt_empty : ParseInt "" = .error (.ext "strconv.ParseInt: invalid syntax") := by
  decide

theorem parseInt_range (s : String) (n : Int) (h : ParseInt s = .ok n) :
    -(2 : Int) ^ 63 ≤ n ∧ n < (2 : Int) ^ 63 := by
  unfold ParseInt at h
  split at h
  · simp at h
  · simp only at h
    split at h
    · simp at h
    · split at h
      · simp at h
      · rename_i un _
        split at h
        · simp at h
        · split at h
          · simp at h
          · rename_i h1 h2
            simp only [Except.ok.injEq] at h
            subst h
            split
            · rename_i hneg
              have h3 : ¬ un > 2 ^ 63 := fun hc => h2 ⟨hneg, hc⟩
              have h4 : un ≤ 2 ^ 63 := Nat.le_of_not_gt h3
              have h5 : (un : Int) ≤ (2 : Int) ^ 63 := by exact_mod_cast h4
              constructor
              · omega
              · have : (0 : Int) ≤ un := Int.natCast_nonneg un
                have h6 : (0 : Int) < (2 : Int) ^ 63 := by norm_num
                omega
            · rename_i hneg
              have h3 : ¬ un ≥ 2 ^ 63 := fun hc => h1 ⟨hneg, hc⟩
              have h4 : un < 2 ^ 63 := Nat.lt_of_not_ge h3
              have h5 : (un : Int) < (2 : Int) ^ 63 := by exact_mod_cast h4
              have : (0 : Int) ≤ un := Int.natCast_nonneg un
              have h6 : (0 : Int) < (2 : Int) ^ 63 := by norm_num
              constructor
              · omega
              · exact h5

theorem lookup_mem (l : List (String × Nat)) (k : String) (v : Nat)
    (h : l.lookup k = some v) : (k, v) ∈ l := by
  induction l with
  | nil => simp at h
  | cons p rest ih =>
    obtain ⟨k1, v1⟩ := p
    rw [List.lookup_cons] at h
    by_cases hk : k = k1
    · subst hk
      simp at h
      subst h
      exact List.mem_cons_self _ _
    · have hb : (k == k1) = false := by simpa using hk
      rw [hb] at h
      exact List.mem_cons_of_mem _ (ih h)

theorem mem_lookup (l : List (String × Nat)) (hnd : (l.map Prod.fst).Nodup) (k : String)
    (v : Nat) (h : (k, v) ∈ l) : l.lookup k = some v := by
  induction l with
  | nil => simp at h
  | cons p rest ih =>
    obtain ⟨k1, v1⟩ := p
    rw [List.lookup_cons]
    simp only [List.map_cons, List.nodup_cons] at hnd
    rcases List.mem_cons.mp h with heq | hmem
    · cases heq
      simp
    · have hk : k ≠ k1 := by
        intro hk
        subst hk
        exact hnd.1 (List.mem_map_of_mem Prod.fst hmem)
      have hb : (k == k1) = false := by simpa using hk
      rw [hb]
      exact ih hnd.2 hmem

theorem typeCode_iff_mem (k : String) (v : Nat) :
    typeCode k = some v ↔ (k, v) ∈ DNSRecordTypeMap := by
  constructor
  · exact lookup_mem _ _ _
  · exact mem_lookup _ (by decide) _ _

theorem findTypeName_of_mem (ty : Nat) (order : List (String × Nat))
    (hnd : (order.map Prod.snd).Nodup) (k : String) (h : (k, ty) ∈ order) :
    findTypeName ty order = k := by
  induction order with
  | nil => simp at h
  | cons p rest ih =>
    obtain ⟨k1, v1⟩ := p
    simp only [List.map_cons, List.nodup_cons] at hnd
    rcases List.mem_cons.mp h with heq | hmem
    · cases heq
      simp [findTypeName]
    · have hv : v1 ≠ ty := by
        intro hv
        subst hv
        exact hnd.1 (List.mem_map_of_mem Prod.snd hmem)
      simp only [findTypeName, hv, if_false]
      exact ih hnd.2 hmem

theorem findTypeName_of_not_mem (ty : Nat) (order : List (String × Nat))
    (h : ∀ k, (k, ty) ∉ order) : findTypeName ty order = "" := by
  induction order with
  | nil => rfl
  | cons p rest ih =>
    obtain ⟨k1, v1⟩ := p
    have hv : v1 ≠ ty := by
      intro hv
      subst hv
      exact h k1 (List.mem_cons_self _ _)
    simp only [findTypeName, hv, if_false]
    exact ih (fun k hk => h k (List.mem_cons_of_mem _ hk))

theorem typeName_ne_empty (k : String) (v : Nat) (h : (k, v) ∈ DNSRecordTypeMap) : k ≠ "" := by
  simp [DNSRecordTypeMap] at h
  rcases h with h | h | h | h | h | h | h <;> (rw [h.1]; decide)

theorem typeCode_injective (T T2 : String) (c : Nat) (h1 : typeCode T = some c)
    (h2 : typeCode T2 = some c) : T = T2 := by
  rw [typeCode_iff_mem] at h1 h2
  simp [DNSRecordTypeMap] at h1 h2
  rcases h1 with h1 | h1 | h1 | h1 | h1 | h1 | h1 <;>
    rcases h2 with h2 | h2 | h2 | h2 | h2 | h2 | h2 <;>
      (first
        | (exfalso; have := h1.2; have := h2.2; omega)
        | (rw [h1.1, h2.1]))

theorem cutSuffix_append (a d : String) : CutSuffix (a ++ d) d = (a, true) := by
  have hs : HasSuffix (a ++ d) d = true := by
    simp only [HasSuffix, String.data_append]
    exact List.isSuffixOf_iff_suffix.mpr (List.suffix_append _ _)
  have ht : List.take ((a ++ d).data.length - d.data.length) (a ++ d).data = a.data := by
    rw [String.data_append]
    apply List.take_left'
    simp
  simp only [CutSuffix, hs, if_true, ht]

theorem dropLast1_dot (sub : String) : dropLast1 (sub ++ ".") = sub := by
  have hd : (sub ++ ".").data = sub.data ++ ['.'] := by
    rw [String.data_append]
  simp only [dropLast1, hd, List.dropLast_concat]

theorem append_dot_ne (sub d : String) : sub ++ "." ++ d ≠ d := by
  intro h
  have h1 := congrArg (fun x : String => x.data.length) h
  simp only [String.data_append, List.length_append] at h1
  have h2 : ['.'].length = 1 := rfl
  omega

theorem firstWithDomain_first (d : String) (items : List DnsZone)
    (h : ∃ z ∈ items, z.Domain = d) :
    ∃ z1 pre post, firstWithDomain d items = some z1 ∧ z1.Domain = d ∧
      items = pre ++ z1 :: post ∧ ∀ y ∈ pre, y.Domain ≠ d := by
  induction items with
  | nil =>
    obtain ⟨z, hz, _⟩ := h
    cases hz
  | cons x rest ih =>
    by_cases hx : x.Domain = d
    · exact ⟨x, [], rest, by simp [firstWithDomain, hx], hx, rfl, by simp⟩
    · obtain ⟨z, hz, hzd⟩ := h
      have hrest : ∃ z ∈ rest, z.Domain = d := by
        rcases List.mem_cons.mp hz with h1 | h1
        · subst h1
          exact absurd hzd hx
        · exact ⟨z, h1, hzd⟩
      obtain ⟨z1, pre, post, h1, h2, h3, h4⟩ := ih hrest
      refine ⟨z1, x :: pre, post, by simp [firstWithDomain, hx, h1], h2, by simp [h3], ?_⟩
      intro y hy
      rcases List.mem_cons.mp hy with h5 | h5
      · subst h5
        exact hx
      · exact h4 y h5

theorem firstWithDomain_domain (d : String) (items : List DnsZone) (z : DnsZone)
    (h : firstWithDomain d items = some z) : z.Domain = d := by
  induction items with
  | nil => cases h
  | cons x rest ih =>
    by_cases hx : x.Domain = d
    · simp [firstWithDomain, hx] at h
      subst h
      exact hx
    · simp [firstWithDomain, hx] at h
      exact ih h

theorem firstWithDomain_none (d : String) (items : List DnsZone)
    (h : ∀ z ∈ items, z.Domain ≠ d) : firstWithDomain d items = none := by
  induction items with
  | nil => rfl
  | cons x rest ih =>
    have hx : x.Domain ≠ d := h x (List.mem_cons_self _ _)
    simp only [firstWithDomain, hx, if_false]
    exact ih (fun z hz => h z (List.mem_cons_of_mem _ hz))

theorem doRequest_snd (net : Transport) (tr : Trace) (rq : Request) :
    (doRequest net tr rq).2 = tr ++ [rq] := by
  unfold doRequest
  split
  · rfl
  · split <;> rfl

theorem searchDnsZone_trace (net : Transport) (tr : Trace) (d : String) :
    (searchDnsZone net tr d).2 = tr ++ [.searchZones d] := by
  have h := doRequest_snd net tr (.searchZones d)
  unfold searchDnsZone
  rcases hdo : doRequest net tr (.searchZones d) with ⟨r, tr1⟩
  rw [hdo] at h
  simp only at h
  subst h
  cases r with
  | error e => rfl
  | ok resp =>
    simp only
    split
    · rfl
    · split
      · rfl
      · split <;> rfl

theorem searchDnsZone_ok_domain (net : Transport) (tr : Trace) (d : String) (z : DnsZone)
    (h : (searchDnsZone net tr d).1 = .ok z) : z.Domain = d := by
  unfold searchDnsZone at h
  rcases hdo : doRequest net tr (.searchZones d) with ⟨r, tr1⟩
  rw [hdo] at h
  cases r with
  | error e => simp at h
  | ok resp =>
    simp only at h
    split at h
    · simp at h
    · split at h
      · simp at h
      · rename_i items hitems
        split at h
        · rename_i record hrec
          simp only [Except.ok.injEq] at h
          subst h
          exact firstWithDomain_domain d items _ hrec
        · simp at h

theorem searchDnsZone_fails (net : Transport) (tr : Trace) (d : String)
    (h : (∃ e0, net tr (.searchZones d) = .error e0) ∨
      ∃ resp, net tr (.searchZones d) = .ok resp ∧
        (resp.StatusCode ≠ 200 ∨ (∃ e1, resp.Items = .error e1) ∨
          ∃ items, resp.Items = .ok items ∧ ∀ z ∈ items, z.Domain ≠ d)) :
    ∃ e, (searchDnsZone net tr d).1 = .error e := by
  unfold searchDnsZone doRequest
  rcases h with ⟨e0, h0⟩ | ⟨resp, hr, hcase⟩
  · exact ⟨.ext e0, by simp [h0]⟩
  · by_cases h401 : resp.StatusCode = 401
    · exact ⟨.ErrUnauthorized, by simp [hr, h401]⟩
    · by_cases h200 : resp.StatusCode = 200
      · rcases hcase with h1 | ⟨e1, h1⟩ | ⟨items, h1, h2⟩
        · exact absurd h200 h1
        · exact ⟨.ext e1, by simp [hr, h401, h200, h1]⟩
        · exact ⟨.new ("DNS zone \"" ++ d ++ "\" not found"),
            by simp [hr, h401, h200, h1, firstWithDomain_none d items h2]⟩
      · exact ⟨.new resp.Status, by simp [hr, h401, h200]⟩

theorem SearchDnsZone_of_cut (etld : String → Except String String) (net : Transport)
    (tr : Trace) (h d sub : String) (hetld : etld h = .ok d)
    (hshape : (h = d ∧ sub = "") ∨ h = sub ++ "." ++ d) :
    SearchDnsZone etld net tr h =
      match searchDnsZone net tr d with
      | (.error _, tr1) => (.error (.new "no DnsZone found"), tr1)
      | (.ok zone, tr1) => (.ok (sub, zone), tr1) := by
  rcases hshape with ⟨h1, h2⟩ | h1
  · subst h1 h2
    simp [SearchDnsZone, hetld]
  · subst h1
    have hne := append_dot_ne sub d
    have hcut : CutSuffix (sub ++ "." ++ d) d = (sub ++ ".", true) := cutSuffix_append _ _
    simp [SearchDnsZone, hetld, hne, hcut, dropLast1_dot]

theorem searchDnsZone_found (net : Transport) (tr : Trace) (d : String) (resp : Response)
    (items : List DnsZone) (z1 : DnsZone) (hnet : net tr (.searchZones d) = .ok resp)
    (hstatus : resp.StatusCode = 200) (hitems : resp.Items = .ok items)
    (hfirst : firstWithDomain d items = some z1) :
    searchDnsZone net tr d = (.ok z1, tr ++ [.searchZones d]) := by
  have h401 : ¬ resp.StatusCode = 401 := by omega
  simp [searchDnsZone, doRequest, hnet, h401, hstatus, hitems, hfirst]

theorem SearchDnsZone_ok_etld (etld : String → Except String String) (net : Transport)
    (tr : Trace) (h s : String) (z : DnsZone) (tr1 : Trace)
    (hres : SearchDnsZone etld net tr h = (.ok (s, z), tr1)) : etld h = .ok z.Domain := by
  unfold SearchDnsZone at hres
  cases he : etld h with
  | error e => simp [he] at hres
  | ok d =>
    simp only [he] at hres
    split at hres
    · simp at hres
    · rcases hs : searchDnsZone net tr d with ⟨r, tr2⟩
      rw [hs] at hres
      cases r with
      | error e => simp at hres
      | ok zone =>
        simp only [Prod.mk.injEq, Except.ok.injEq] at hres
        have hz : zone = z := hres.1.2
        subst hz
        have hd := searchDnsZone_ok_domain net tr d zone (by rw [hs])
        rw [hd]

/-! ### Deletion -/

theorem DeleteDnsRecord_snd (net : Transport) (tr : Trace) (zid id : Int) :
    (DeleteDnsRecord net tr zid id).2 = tr ++ [.deleteRecord zid id] := by
  have h := doRequest_snd net tr (.deleteRecord zid id)
  unfold DeleteDnsRecord
  rcases hdo : doRequest net tr (.deleteRecord zid id) with ⟨r, tr1⟩
  rw [hdo] at h
  simp only at h
  subst h
  cases r with
  | error e => rfl
  | ok resp =>
    simp only
    split
    · rfl
    · split <;> rfl

theorem DeleteDnsRecord_answered (net : Transport) (tr : Trace) (zid id : Int)
    (resp : Response) (hnet : net tr (.deleteRecord zid id) = .ok resp)
    (hstatus : resp.StatusCode = 204 ∨ resp.StatusCode = 404) :
    DeleteDnsRecord net tr zid id = (none, tr ++ [.deleteRecord zid id]) ∨
    DeleteDnsRecord net tr zid id = (some .ErrRecordNotFound, tr ++ [.deleteRecord zid id]) := by
  rcases hstatus with h | h
  · left
    simp [DeleteDnsRecord, doRequest, hnet, h]
  · right
    simp [DeleteDnsRecord, doRequest, hnet, h]

theorem deleteRecords_skip (net : Transport) (zone : DnsZone) (sub : String) (ty : Nat)
    (target : String) (record : DnsRecord) (rest : List DnsRecord) (tr : Trace)
    (h : ¬ (record.Name = sub ∧ record.Type_ = ty ∧ record.Value = target)) :
    deleteRecords net zone sub ty target (record :: rest) tr =
      deleteRecords net zone sub ty target rest tr := by
  have h2 : record.Name ≠ sub ∨ record.Type_ ≠ ty ∨ record.Value ≠ target := by
    by_contra hc
    push_neg at hc
    exact h hc
  simp only [deleteRecords, h2, if_true]

theorem deleteRecords_match (net : Transport) (zone : DnsZone) (sub : String) (ty : Nat)
    (target : String) (record : DnsRecord) (rest : List DnsRecord) (tr : Trace)
    (h : record.Name = sub ∧ record.Type_ = ty ∧ record.Value = target) :
    deleteRecords net zone sub ty target (record :: rest) tr =
      match DeleteDnsRecord net tr zone.Id record.Id with
      | (some err, tr1) =>
        if err.isRecordNotFound then deleteRecords net zone sub ty target rest tr1
        else (some err, tr1)
      | (none, tr1) => deleteRecords net zone sub ty target rest tr1 := by
  have h2 : ¬ (record.Name ≠ sub ∨ record.Type_ ≠ ty ∨ record.Value ≠ target) := by
    push_neg
    exact h
  simp only [deleteRecords, h2, if_false]

theorem deleteRecords_all (net : Transport) (zone : DnsZone) (sub : String) (ty : Nat)
    (target : String) (records : List DnsRecord)
    (hdel : ∀ tr2, ∀ record ∈ records, ∃ resp,
      net tr2 (.deleteRecord zone.Id record.Id) = .ok resp ∧
        (resp.StatusCode = 204 ∨ resp.StatusCode = 404)) (tr : Trace) :
    deleteRecords net zone sub ty target records tr =
      (none, tr ++ (records.filter
        (fun record => record.Name = sub ∧ record.Type_ = ty ∧ record.Value = target)).map
          (fun record => .deleteRecord zone.Id record.Id)) := by
  induction records generalizing tr with
  | nil => simp [deleteRecords]
  | cons record rest ih =>
    have ih2 := ih (fun tr2 r hr => hdel tr2 r (List.mem_cons_of_mem _ hr))
    by_cases hm : record.Name = sub ∧ record.Type_ = ty ∧ record.Value = target
    · rw [deleteRecords_match net zone sub ty target record rest tr hm]
      obtain ⟨resp, hnet, hstatus⟩ := hdel tr record (List.mem_cons_self _ _)
      have hfilter : (record :: rest).filter
          (fun record => record.Name = sub ∧ record.Type_ = ty ∧ record.Value = target) =
          record :: rest.filter
            (fun record => record.Name = sub ∧ record.Type_ = ty ∧ record.Value = target) := by
        rw [List.filter_cons]
        simp [hm]
      rw [hfilter]
      rcases DeleteDnsRecord_answered net tr zone.Id record.Id resp hnet hstatus with h | h
      · rw [h]
        simp only
        rw [ih2]
        simp
      · rw [h]
        simp only [Err.isRecordNotFound, if_true]
        rw [ih2]
        simp
    · rw [deleteRecords_skip net zone sub ty target record rest tr hm]
      have hfilter : (record :: rest).filter
          (fun record => record.Name = sub ∧ record.Type_ = ty ∧ record.Value = target) =
          rest.filter
            (fun record => record.Name = sub ∧ record.Type_ = ty ∧ record.Value = target) := by
        rw [List.filter_cons]
        simp [hm]
      rw [hfilter]
      exact ih2 tr

theorem deleteTargets_all (net : Transport) (zone : DnsZone) (sub : String) (ty : Nat)
    (hdel : ∀ tr2, ∀ record ∈ zone.Records, ∃ resp,
      net tr2 (.deleteRecord zone.Id record.Id) = .ok resp ∧
        (resp.StatusCode = 204 ∨ resp.StatusCode = 404))
    (targets : List String) (tr : Trace) :
    deleteTargets net zone sub ty targets tr =
      (none, tr ++ targets.flatMap (fun target =>
        (zone.Records.filter
          (fun record => record.Name = sub ∧ record.Type_ = ty ∧ record.Value = target)).map
            (fun record => .deleteRecord zone.Id record.Id))) := by
  induction targets generalizing tr with
  | nil => simp [deleteTargets]
  | cons target rest ih =>
    simp only [deleteTargets, deleteRecords_all net zone sub ty target zone.Records hdel tr]
    rw [ih]
    simp [List.flatMap_cons]

/-! ### Creation -/

theorem jsonMarshal_zero_floats (data : DnsRecord) (h1 : data.GeolocationLatitude = 0)
    (h2 : data.GeolocationLongitude = 0) : jsonMarshal data = .ok data := by
  simp [jsonMarshal, floatNotFinite, h1, h2]

theorem CreateDnsRecord_built (net : Transport) (tr : Trace) (zid : Int) (sub : String)
    (ty : Nat) (target : String) (ttl : Int) :
    CreateDnsRecord net tr
        { Zone := zid, Name := sub, Type_ := ty, Value := target, Ttl := ttl } =
      if zid = 0 then (some (.new "zone is required"), tr)
      else if ty = 7 then (some (.new "linkname should contain the Pullzone ID"), tr)
      else
        match doRequest net tr
            (.putRecord zid { Zone := zid, Name := sub, Type_ := ty, Value := target, Ttl := ttl }) with
        | (.error err, tr1) => (some err, tr1)
        | (.ok resp, tr1) =>
          if resp.StatusCode ≠ 201 then
            (some (.new ("create DNS record failed with " ++ resp.Status)), tr1)
          else (none, tr1) := by
  by_cases hz : zid = 0
  · simp [CreateDnsRecord, hz]
  · by_cases h7 : ty = 7
    · have hlen : ("" : String).length = 0 := rfl
      simp [CreateDnsRecord, hz, h7, convertDnsRecordForApiSave, typeCodeOrZero_PZ, hlen]
    · simp only [CreateDnsRecord, hz, h7, if_false, convertDnsRecordForApiSave,
        typeCodeOrZero_PZ]
      rw [jsonMarshal_zero_floats _ rfl rfl]

theorem CreateDnsRecord_built_none (net : Transport) (tr : Trace) (zid : Int) (sub : String)
    (ty : Nat) (target : String) (ttl : Int)
    (h : (CreateDnsRecord net tr
        { Zone := zid, Name := sub, Type_ := ty, Value := target, Ttl := ttl }).1 = none) :
    CreateDnsRecord net tr
        { Zone := zid, Name := sub, Type_ := ty, Value := target, Ttl := ttl } =
      (none, tr ++ [.putRecord zid
        { Zone := zid, Name := sub, Type_ := ty, Value := target, Ttl := ttl }]) := by
  have hsnd := doRequest_snd net tr
    (.putRecord zid { Zone := zid, Name := sub, Type_ := ty, Value := target, Ttl := ttl })
  rw [CreateDnsRecord_built] at h ⊢
  by_cases hz : zid = 0
  · simp [hz] at h
  · by_cases h7 : ty = 7
    · simp [hz, h7] at h
    · simp only [hz, h7, if_false] at h ⊢
      rcases hdo : doRequest net tr
        (.putRecord zid { Zone := zid, Name := sub, Type_ := ty, Value := target, Ttl := ttl })
        with ⟨r, tr1⟩
      rw [hdo] at h hsnd
      simp only at hsnd
      subst hsnd
      cases r with
      | error err => simp at h
      | ok resp =>
        simp only at h ⊢
        split
        · rename_i hne
          simp [hne] at h
        · rfl

theorem CreateDnsRecord_built_PZ (net : Transport) (tr : Trace) (zid : Int) (sub : String)
    (target : String) (ttl : Int) :
    CreateDnsRecord net tr
        { Zone := zid, Name := sub, Type_ := 7, Value := target, Ttl := ttl } =
      (some (if zid = 0 then .new "zone is required"
        else .new "linkname should contain the Pullzone ID"), tr) := by
  rw [CreateDnsRecord_built]
  by_cases hz : zid = 0 <;> simp [hz]

theorem createTargets_all (net : Transport) (zone : DnsZone) (sub : String) (ty : Nat)
    (ttl : Int) (targets : List String)
    (hcreate : ∀ tr2, ∀ target ∈ targets,
      (CreateDnsRecord net tr2
        { Zone := zone.Id, Name := sub, Type_ := ty, Value := target, Ttl := ttl }).1 = none)
    (tr : Trace) :
    createTargets net zone sub ty ttl targets tr =
      (none, tr ++ targets.map (fun target => .putRecord zone.Id
        { Zone := zone.Id, Name := sub, Type_ := ty, Value := target, Ttl := ttl })) := by
  induction targets generalizing tr with
  | nil => simp [createTargets]
  | cons target rest ih =>
    have h1 := CreateDnsRecord_built_none net tr zone.Id sub ty target ttl
      (hcreate tr target (List.mem_cons_self _ _))
    simp only [createTargets, h1]
    rw [ih (fun tr2 t ht => hcreate tr2 t (List.mem_cons_of_mem _ ht))]
    simp

/-! ### Loops -/

theorem forEach_append {α : Type} (f : α → Trace → Option Err × Trace) (xs ys : List α)
    (tr : Trace) :
    forEach f (xs ++ ys) tr =
      match forEach f xs tr with
      | (some err, tr1) => (some err, tr1)
      | (none, tr1) => forEach f ys tr1 := by
  induction xs generalizing tr with
  | nil => simp [forEach]
  | cons x rest ih =>
    simp only [List.cons_append, forEach]
    rcases hx : f x tr with ⟨r, tr1⟩
    cases r with
    | none => simp only; exact ih tr1
    | some err => rfl

theorem forEach_map {α β : Type} (f : β → Trace → Option Err × Trace) (g : α → β)
    (xs : List α) (tr : Trace) :
    forEach f (xs.map g) tr = forEach (fun x => f (g x)) xs tr := by
  induction xs generalizing tr with
  | nil => rfl
  | cons x rest ih =>
    simp only [List.map_cons, forEach]
    rcases hx : f (g x) tr with ⟨r, tr1⟩
    cases r with
    | none => simp only; exact ih tr1
    | some err => rfl

theorem forEach_none_iff {α : Type} (f : α → Trace → Option Err × Trace) (xs : List α)
    (tr tr2 : Trace) : forEach f xs tr = (none, tr2) ↔ AllSucceed f xs tr tr2 := by
  induction xs generalizing tr with
  | nil =>
    simp only [forEach, AllSucceed, Prod.mk.injEq, true_and]
    exact eq_comm
  | cons x rest ih =>
    simp only [forEach, AllSucceed]
    rcases hx : f x tr with ⟨r, tr1⟩
    cases r with
    | none =>
      simp only [Prod.mk.injEq, true_and]
      constructor
      · intro h
        exact ⟨tr1, rfl, (ih tr1).mp h⟩
      · rintro ⟨tr3, h3, h4⟩
        subst h3
        exact (ih tr1).mpr h4
    | some err =>
      constructor
      · intro h
        simp at h
      · rintro ⟨tr3, h3, _⟩
        simp at h3

theorem forEach_fail_at {α : Type} (f : α → Trace → Option Err × Trace) (pre : List α)
    (x : α) (post : List α) (tr tr1 tr2 : Trace) (err : Err)
    (hpre : AllSucceed f pre tr tr1) (hx : f x tr1 = (some err, tr2)) :
    forEach f (pre ++ x :: post) tr = (some err, tr2) := by
  rw [forEach_append, (forEach_none_iff f pre tr tr1).mpr hpre]
  simp only [forEach, hx]

theorem forEach_fails_of_mem {α : Type} (f : α → Trace → Option Err × Trace) (x : α)
    (hx : ∀ tr, (f x tr).1 ≠ none) (xs : List α) (hmem : x ∈ xs) (tr : Trace) :
    (forEach f xs tr).1 ≠ none := by
  induction xs generalizing tr with
  | nil => cases hmem
  | cons y rest ih =>
    simp only [forEach]
    rcases hy : f y tr with ⟨r, tr1⟩
    cases r with
    | some err => simp
    | none =>
      simp only
      rcases List.mem_cons.mp hmem with h | h
      · subst h
        have := hx tr
        rw [hy] at this
        exact absurd rfl this
      · exact ih h tr1

theorem forEach_ops {α : Type} (P : Request → Prop) (f : α → Trace → Option Err × Trace)
    (hf : ∀ x tr, ∃ ops, (f x tr).2 = tr ++ ops ∧ ∀ op ∈ ops, P op) (xs : List α)
    (tr : Trace) : ∃ ops, (forEach f xs tr).2 = tr ++ ops ∧ ∀ op ∈ ops, P op := by
  induction xs generalizing tr with
  | nil => exact ⟨[], by simp [forEach], by simp⟩
  | cons x rest ih =>
    obtain ⟨ops1, h1, hp1⟩ := hf x tr
    simp only [forEach]
    rcases hx : f x tr with ⟨r, tr1⟩
    rw [hx] at h1
    simp only at h1
    subst h1
    cases r with
    | some err => exact ⟨ops1, rfl, hp1⟩
    | none =>
      obtain ⟨ops2, h2, hp2⟩ := ih (tr ++ ops1)
      refine ⟨ops1 ++ ops2, by simp only [h2, List.append_assoc], ?_⟩
      intro op hop
      rcases List.mem_append.mp hop with h | h
      · exact hp1 op h
      · exact hp2 op h

/-! ### Shape of the requests of each path -/

theorem SearchDnsZone_ops (etld : String → Except String String) (net : Transport)
    (tr : Trace) (h : String) :
    ∃ ops, (SearchDnsZone etld net tr h).2 = tr ++ ops ∧
      ∀ op ∈ ops, op.isPut = false ∧ op.isDelete = false := by
  unfold SearchDnsZone
  cases etld h with
  | error e => exact ⟨[], by simp, by simp⟩
  | ok d =>
    simp only
    split
    · exact ⟨[], by simp, by simp⟩
    · have htr := searchDnsZone_trace net tr d
      rcases hs : searchDnsZone net tr d with ⟨r, tr1⟩
      rw [hs] at htr
      simp only at htr
      subst htr
      refine ⟨[.searchZones d], ?_, by simp [Request.isPut, Request.isDelete]⟩
      cases r <;> rfl

theorem deleteRecords_ops (net : Transport) (zone : DnsZone) (sub : String) (ty : Nat)
    (target : String) (records : List DnsRecord) (tr : Trace) :
    ∃ ops, (deleteRecords net zone sub ty target records tr).2 = tr ++ ops ∧
      ∀ op ∈ ops, op.isPut = false := by
  induction records generalizing tr with
  | nil => exact ⟨[], by simp [deleteRecords], by simp⟩
  | cons record rest ih =>
    by_cases hm : record.Name = sub ∧ record.Type_ = ty ∧ record.Value = target
    · rw [deleteRecords_match net zone sub ty target record rest tr hm]
      have hsnd := DeleteDnsRecord_snd net tr zone.Id record.Id
      rcases hd : DeleteDnsRecord net tr zone.Id record.Id with ⟨r, tr1⟩
      rw [hd] at hsnd
      simp only at hsnd
      subst hsnd
      obtain ⟨ops2, h2, hp2⟩ := ih (tr ++ [.deleteRecord zone.Id record.Id])
      have hcont : ∃ ops, (deleteRecords net zone sub ty target rest
          (tr ++ [.deleteRecord zone.Id record.Id])).2 = tr ++ ops ∧
          ∀ op ∈ ops, op.isPut = false := by
        refine ⟨.deleteRecord zone.Id record.Id :: ops2, by simp [h2], ?_⟩
        intro op hop
        rcases List.mem_cons.mp hop with h | h
        · subst h
          rfl
        · exact hp2 op h
      cases r with
      | none => exact hcont
      | some err =>
        simp only
        split
        · exact hcont
        · exact ⟨[.deleteRecord zone.Id record.Id], rfl, by simp [Request.isPut]⟩
    · rw [deleteRecords_skip net zone sub ty target record rest tr hm]
      exact ih tr

theorem deleteTargets_ops (net : Transport) (zone : DnsZone) (sub : String) (ty : Nat)
    (targets : List String) (tr : Trace) :
    ∃ ops, (deleteTargets net zone sub ty targets tr).2 = tr ++ ops ∧
      ∀ op ∈ ops, op.isPut = false := by
  induction targets generalizing tr with
  | nil => exact ⟨[], by simp [deleteTargets], by simp⟩
  | cons target rest ih =>
    obtain ⟨ops1, h1, hp1⟩ := deleteRecords_ops net zone sub ty target zone.Records tr
    simp only [deleteTargets]
    rcases hx : deleteRecords net zone sub ty target zone.Records tr with ⟨r, tr1⟩
    rw [hx] at h1
    simp only at h1
    subst h1
    cases r with
    | some err => exact ⟨ops1, rfl, hp1⟩
    | none =>
      obtain ⟨ops2, h2, hp2⟩ := ih (tr ++ ops1)
      refine ⟨ops1 ++ ops2, by simp only [h2, List.append_assoc], ?_⟩
      intro op hop
      rcases List.mem_append.mp hop with h | h
      · exact hp1 op h
      · exact hp2 op h

theorem endpointDelete_ops (etld : String → Except String String) (net : Transport)
    (e : Endpoint) (tr : Trace) :
    ∃ ops, (endpointDelete etld net e tr).2 = tr ++ ops ∧ ∀ op ∈ ops, op.isPut = false := by
  unfold endpointDelete
  cases typeCode e.RecordType with
  | none => exact ⟨[], by simp, by simp⟩
  | some ty =>
    obtain ⟨ops1, h1, hp1⟩ := SearchDnsZone_ops etld net tr e.DNSName
    simp only
    rcases hs : SearchDnsZone etld net tr e.DNSName with ⟨r, tr1⟩
    rw [hs] at h1
    simp only at h1
    subst h1
    cases r with
    | error err => exact ⟨ops1, rfl, fun op hop => (hp1 op hop).1⟩
    | ok p =>
      obtain ⟨sub, zone⟩ := p
      obtain ⟨ops2, h2, hp2⟩ := deleteTargets_ops net zone sub ty e.Targets (tr ++ ops1)
      refine ⟨ops1 ++ ops2, by simp only [h2, List.append_assoc], ?_⟩
      intro op hop
      rcases List.mem_append.mp hop with h | h
      · exact (hp1 op h).1
      · exact hp2 op h

theorem CreateDnsRecord_ops (net : Transport) (tr : Trace) (data : DnsRecord) :
    ∃ ops, (CreateDnsRecord net tr data).2 = tr ++ ops ∧ ∀ op ∈ ops, op.isDelete = false := by
  unfold CreateDnsRecord
  simp only
  split
  · exact ⟨[], by simp, by simp⟩
  · split
    · exact ⟨[], by simp, by simp⟩
    · split
      · exact ⟨[], by simp, by simp⟩
      · rename_i body _
        have hsnd := doRequest_snd net tr (.putRecord data.Zone body)
        rcases hdo : doRequest net tr (.putRecord data.Zone body) with ⟨r, tr1⟩
        rw [hdo] at hsnd
        simp only at hsnd
        subst hsnd
        refine ⟨[.putRecord data.Zone body], ?_, by simp [Request.isDelete]⟩
        cases r with
        | error err => rfl
        | ok resp =>
          simp only
          split <;> rfl

theorem createTargets_ops (net : Transport) (zone : DnsZone) (sub : String) (ty : Nat)
    (ttl : Int) (targets : List String) (tr : Trace) :
    ∃ ops, (createTargets net zone sub ty ttl targets tr).2 = tr ++ ops ∧
      ∀ op ∈ ops, op.isDelete = false := by
  induction targets generalizing tr with
  | nil => exact ⟨[], by simp [createTargets], by simp⟩
  | cons target rest ih =>
    obtain ⟨ops1, h1, hp1⟩ := CreateDnsRecord_ops net tr
      { Zone := zone.Id, Name := sub, Type_ := ty, Value := target, Ttl := ttl }
    simp only [createTargets]
    rcases hx : CreateDnsRecord net tr
      { Zone := zone.Id, Name := sub, Type_ := ty, Value := target, Ttl := ttl } with ⟨r, tr1⟩
    rw [hx] at h1
    simp only at h1
    subst h1
    cases r with
    | some err => exact ⟨ops1, rfl, hp1⟩
    | none =>
      obtain ⟨ops2, h2, hp2⟩ := ih (tr ++ ops1)
      refine ⟨ops1 ++ ops2, by simp only [h2, List.append_assoc], ?_⟩
      intro op hop
      rcases List.mem_append.mp hop with h | h
      · exact hp1 op h
      · exact hp2 op h

theorem endpointCreate_ops (etld : String → Except String String) (net : Transport)
    (e : Endpoint) (tr : Trace) :
    ∃ ops, (endpointCreate etld net e tr).2 = tr ++ ops ∧ ∀ op ∈ ops, op.isDelete = false := by
  unfold endpointCreate
  obtain ⟨ops1, h1, hp1⟩ := SearchDnsZone_ops etld net tr e.DNSName
  rcases hs : SearchDnsZone etld net tr e.DNSName with ⟨r, tr1⟩
  rw [hs] at h1
  simp only at h1
  subst h1
  cases r with
  | error err => exact ⟨ops1, rfl, fun op hop => (hp1 op hop).2⟩
  | ok p =>
    obtain ⟨sub, zone⟩ := p
    simp only
    cases typeCode e.RecordType with
    | none => exact ⟨ops1, rfl, fun op hop => (hp1 op hop).2⟩
    | some ty =>
      simp only
      obtain ⟨ops2, h2, hp2⟩ := createTargets_ops net zone sub ty
        (if e.RecordTTL < 1 then 300 else e.RecordTTL) e.Targets (tr ++ ops1)
      refine ⟨ops1 ++ ops2, by simp only [h2, List.append_assoc], ?_⟩
      intro op hop
      rcases List.mem_append.mp hop with h | h
      · exact (hp1 op h).2
      · exact hp2 op h

/-! ### The batch -/

theorem forEach_delete_steps (etld : String → Except String String) (net : Transport)
    (xs : List Endpoint) (tr : Trace) :
    forEach (runStep etld net) (xs.map .delete) tr = forEach (endpointDelete etld net) xs tr :=
  forEach_map (runStep etld net) Step.delete xs tr

theorem forEach_create_steps (etld : String → Except String String) (net : Transport)
    (xs : List Endpoint) (tr : Trace) :
    forEach (runStep etld net) (xs.map .create) tr = forEach (endpointCreate etld net) xs tr :=
  forEach_map (runStep etld net) Step.create xs tr

theorem ApplyChanges_eq_steps (etld : String → Except String String) (net : Transport)
    (ch : Changes) (tr : Trace) :
    ApplyChanges etld net ch tr = forEach (runStep etld net) ch.steps tr := by
  unfold ApplyChanges Changes.steps
  rw [forEach_append, forEach_append, forEach_append, forEach_delete_steps]
  rcases h1 : forEach (endpointDelete etld net) ch.Delete tr with ⟨r1, tr1⟩
  cases r1 with
  | some err => rfl
  | none =>
    simp only
    rw [forEach_delete_steps]
    rcases h2 : forEach (endpointDelete etld net) ch.UpdateOld tr1 with ⟨r2, tr2⟩
    cases r2 with
    | some err => rfl
    | none =>
      simp only
      rw [forEach_create_steps]
      rcases h3 : forEach (endpointCreate etld net) ch.Create tr2 with ⟨r3, tr3⟩
      cases r3 with
      | some err => rfl
      | none =>
        simp only
        rw [forEach_create_steps]
        rcases h4 : forEach (endpointCreate etld net) ch.UpdateNew tr3 with ⟨r4, tr4⟩
        cases r4 <;> rfl

theorem ApplyChanges_none_iff (etld : String → Except String String) (net : Transport)
    (ch : Changes) (tr tr4 : Trace) :
    ApplyChanges etld net ch tr = (none, tr4) ↔
      ∃ tr1 tr2 tr3,
        AllSucceed (endpointDelete etld net) ch.Delete tr tr1 ∧
        AllSucceed (endpointDelete etld net) ch.UpdateOld tr1 tr2 ∧
        AllSucceed (endpointCreate etld net) ch.Create tr2 tr3 ∧
        AllSucceed (endpointCreate etld net) ch.UpdateNew tr3 tr4 := by
  simp only [← forEach_none_iff]
  unfold ApplyChanges
  constructor
  · intro h
    rcases h1 : forEach (endpointDelete etld net) ch.Delete tr with ⟨r1, t1⟩
    rw [h1] at h
    cases r1 with
    | some err => simp at h
    | none =>
      simp only at h
      rcases h2 : forEach (endpointDelete etld net) ch.UpdateOld t1 with ⟨r2, t2⟩
      rw [h2] at h
      cases r2 with
      | some err => simp at h
      | none =>
        simp only at h
        rcases h3 : forEach (endpointCreate etld net) ch.Create t2 with ⟨r3, t3⟩
        rw [h3] at h
        cases r3 with
        | some err => simp at h
        | none =>
          simp only at h
          rcases h4 : forEach (endpointCreate etld net) ch.UpdateNew t3 with ⟨r4, t4⟩
          rw [h4] at h
          cases r4 with
          | some err => simp at h
          | none =>
            simp only [Prod.mk.injEq, true_and] at h
            subst h
            exact ⟨t1, t2, t3, rfl, h2, h3, h4⟩
  · rintro ⟨t1, t2, t3, h1, h2, h3, h4⟩
    simp only [h1, h2, h3, h4]

theorem ApplyChanges_two_phases (etld : String → Except String String) (net : Transport)
    (ch : Changes) (tr : Trace) :
    ApplyChanges etld net ch tr =
      match forEach (endpointDelete etld net) (ch.Delete ++ ch.UpdateOld) tr with
      | (some err, tr1) => (some err, tr1)
      | (none, tr1) => forEach (endpointCreate etld net) (ch.Create ++ ch.UpdateNew) tr1 := by
  unfold ApplyChanges
  rw [forEach_append]
  rcases h1 : forEach (endpointDelete etld net) ch.Delete tr with ⟨r1, tr1⟩
  cases r1 with
  | some err => rfl
  | none =>
    simp only
    rcases h2 : forEach (endpointDelete etld net) ch.UpdateOld tr1 with ⟨r2, tr2⟩
    cases r2 with
    | some err => rfl
    | none =>
      simp only
      rw [forEach_append]
      rcases h3 : forEach (endpointCreate etld net) ch.Create tr2 with ⟨r3, tr3⟩
      cases r3 with
      | some err => rfl
      | none =>
        simp only
        rcases h4 : forEach (endpointCreate etld net) ch.UpdateNew tr3 with ⟨r4, tr4⟩
        cases r4 <;> rfl

theorem ApplyChanges_ops (etld : String → Except String String) (net : Transport)
    (ch : Changes) (tr : Trace) :
    ∃ dops cops, (ApplyChanges etld net ch tr).2 = tr ++ dops ++ cops ∧
      (∀ op ∈ dops, op.isPut = false) ∧ (∀ op ∈ cops, op.isDelete = false) := by
  rw [ApplyChanges_two_phases]
  obtain ⟨dops, hd, hpd⟩ := forEach_ops (fun op => op.isPut = false) (endpointDelete etld net)
    (endpointDelete_ops etld net) (ch.Delete ++ ch.UpdateOld) tr
  rcases h1 : forEach (endpointDelete etld net) (ch.Delete ++ ch.UpdateOld) tr with ⟨r1, tr1⟩
  rw [h1] at hd
  simp only at hd
  subst hd
  cases r1 with
  | some err => exact ⟨dops, [], by simp, hpd, by simp⟩
  | none =>
    obtain ⟨cops, hc, hpc⟩ := forEach_ops (fun op => op.isDelete = false)
      (endpointCreate etld net) (endpointCreate_ops etld net) (ch.Create ++ ch.UpdateNew)
      (tr ++ dops)
    exact ⟨dops, cops, hc, hpd, hpc⟩

theorem ApplyChanges_fails_of_create (etld : String → Except String String)
    (net : Transport) (e : Endpoint) (hx : ∀ tr, (endpointCreate etld net e tr).1 ≠ none)
    (ch : Changes) (hmem : e ∈ ch.Create ∨ e ∈ ch.UpdateNew) (tr : Trace) :
    (ApplyChanges etld net ch tr).1 ≠ none := by
  rw [ApplyChanges_two_phases]
  rcases h1 : forEach (endpointDelete etld net) (ch.Delete ++ ch.UpdateOld) tr with ⟨r1, tr1⟩
  cases r1 with
  | some err => simp
  | none =>
    simp only
    apply forEach_fails_of_mem (endpointCreate etld net) e hx
    exact List.mem_append.mpr hmem

theorem ApplyChanges_single_create (etld : String → Except String String) (net : Transport)
    (e : Endpoint) (tr : Trace) :
    ApplyChanges etld net { Create := [e] } tr = endpointCreate etld net e tr ∧
    ApplyChanges etld net { UpdateNew := [e] } tr = endpointCreate etld net e tr := by
  constructor <;>
  · simp only [ApplyChanges, forEach]
    rcases h : endpointCreate etld net e tr with ⟨r, tr1⟩
    cases r <;> rfl

theorem ApplyChanges_single_delete (etld : String → Except String String) (net : Transport)
    (e : Endpoint) (tr : Trace) :
    ApplyChanges etld net { Delete := [e] } tr = endpointDelete etld net e tr ∧
    ApplyChanges etld net { UpdateOld := [e] } tr = endpointDelete etld net e tr := by
  constructor <;>
  · simp only [ApplyChanges, forEach]
    rcases h : endpointDelete etld net e tr with ⟨r, tr1⟩
    cases r <;> rfl

/-! ### First failure inside an endpoint -/

theorem createTargets_fail_at (net : Transport) (zone : DnsZone) (sub : String) (ty : Nat)
    (ttl : Int) (tpre : List String) (t : String) (tpost : List String)
    (tr1 tr2 tr3 : Trace) (err : Err)
    (hpre : AllSucceed (fun target tr => CreateDnsRecord net tr
      { Zone := zone.Id, Name := sub, Type_ := ty, Value := target, Ttl := ttl }) tpre tr1 tr2)
    (hfail : CreateDnsRecord net tr2
      { Zone := zone.Id, Name := sub, Type_ := ty, Value := t, Ttl := ttl } = (some err, tr3)) :
    createTargets net zone sub ty ttl (tpre ++ t :: tpost) tr1 = (some err, tr3) := by
  induction tpre generalizing tr1 with
  | nil =>
    simp only [AllSucceed] at hpre
    subst hpre
    simp only [List.nil_append, createTargets, hfail]
  | cons a rest ih =>
    obtain ⟨trm, h1, h2⟩ := hpre
    simp only at h1
    simp only [List.cons_append, createTargets, h1]
    exact ih trm h2

theorem deleteRecords_append (net : Transport) (zone : DnsZone) (sub : String) (ty : Nat)
    (target : String) (rpre rs : List DnsRecord) (tr : Trace) :
    deleteRecords net zone sub ty target (rpre ++ rs) tr =
      match deleteRecords net zone sub ty target rpre tr with
      | (some err, tr1) => (some err, tr1)
      | (none, tr1) => deleteRecords net zone sub ty target rs tr1 := by
  induction rpre generalizing tr with
  | nil => simp [deleteRecords]
  | cons record rest ih =>
    by_cases hm : record.Name = sub ∧ record.Type_ = ty ∧ record.Value = target
    · rw [List.cons_append, deleteRecords_match net zone sub ty target record _ tr hm,
        deleteRecords_match net zone sub ty target record _ tr hm]
      rcases hd : DeleteDnsRecord net tr zone.Id record.Id with ⟨r, tr1⟩
      cases r with
      | none => simp only; exact ih tr1
      | some err =>
        simp only
        split
        · exact ih tr1
        · rfl
    · rw [List.cons_append, deleteRecords_skip net zone sub ty target record _ tr hm,
        deleteRecords_skip net zone sub ty target record _ tr hm]
      exact ih tr

theorem deleteTargets_append (net : Transport) (zone : DnsZone) (sub : String) (ty : Nat)
    (tpre ts : List String) (tr : Trace) :
    deleteTargets net zone sub ty (tpre ++ ts) tr =
      match deleteTargets net zone sub ty tpre tr with
      | (some err, tr1) => (some err, tr1)
      | (none, tr1) => deleteTargets net zone sub ty ts tr1 := by
  induction tpre generalizing tr with
  | nil => simp [deleteTargets]
  | cons target rest ih =>
    simp only [List.cons_append, deleteTargets]
    rcases hd : deleteRecords net zone sub ty target zone.Records tr with ⟨r, tr1⟩
    cases r with
    | none => simp only; exact ih tr1
    | some err => rfl

theorem deleteTargets_fail_at (net : Transport) (zone : DnsZone) (sub : String) (ty : Nat)
    (tpre : List String) (t : String) (tpost : List String) (rpre : List DnsRecord)
    (r : DnsRecord) (rpost : List DnsRecord) (tr1 tr2 tr3 tr4 : Trace) (err : Err)
    (hrecs : zone.Records = rpre ++ r :: rpost)
    (htpre : deleteTargets net zone sub ty tpre tr1 = (none, tr2))
    (hrpre : deleteRecords net zone sub ty t rpre tr2 = (none, tr3))
    (hm : r.Name = sub ∧ r.Type_ = ty ∧ r.Value = t)
    (hfail : DeleteDnsRecord net tr3 zone.Id r.Id = (some err, tr4))
    (hne : err ≠ .ErrRecordNotFound) :
    deleteTargets net zone sub ty (tpre ++ t :: tpost) tr1 = (some err, tr4) := by
  have hnf : err.isRecordNotFound = false := by
    cases err <;> simp [Err.isRecordNotFound] at hne ⊢
  have hrec : deleteRecords net zone sub ty t zone.Records tr2 = (some err, tr4) := by
    rw [hrecs, deleteRecords_append, hrpre]
    simp only
    rw [deleteRecords_match net zone sub ty t r rpost tr3 hm, hfail]
    simp [hnf]
  rw [deleteTargets_append, htpre]
  simp only [deleteTargets, hrec]

theorem endpointCreate_PZ (etld : String → Except String String) (net : Transport)
    (e : Endpoint) (hpz : e.RecordType = "PZ") (hne : e.Targets ≠ []) (tr : Trace) :
    endpointCreate etld net e tr =
      match SearchDnsZone etld net tr e.DNSName with
      | (.error err, tr1) => (some err, tr1)
      | (.ok (_, zone), tr1) =>
        (some (if zone.Id = 0 then .new "zone is required"
          else .new "linkname should contain the Pullzone ID"), tr1) := by
  have hty : typeCode e.RecordType = some 7 := by rw [hpz]; decide
  unfold endpointCreate
  rcases hs : SearchDnsZone etld net tr e.DNSName with ⟨r, tr1⟩
  cases r with
  | error err => rfl
  | ok p =>
    obtain ⟨sub, zone⟩ := p
    simp only [hty]
    cases ht : e.Targets with
    | nil => exact absurd ht hne
    | cons t rest => simp only [createTargets, CreateDnsRecord_built_PZ]

theorem endpointCreate_unsupported (etld : String → Except String String) (net : Transport)
    (e : Endpoint) (hty : typeCode e.RecordType = none) (tr : Trace) :
    endpointCreate etld net e tr =
      match SearchDnsZone etld net tr e.DNSName with
      | (.error err, tr1) => (some err, tr1)
      | (.ok _, tr1) => (some (.new ("Unsupported DNS record type: " ++ e.RecordType)), tr1) := by
  unfold endpointCreate
  rcases hs : SearchDnsZone etld net tr e.DNSName with ⟨r, tr1⟩
  cases r with
  | error err => rfl
  | ok p =>
    obtain ⟨sub, zone⟩ := p
    simp only [hty]

theorem fails_after_search (etld : String → Except String String) (net : Transport)
    (h : String) (tr : Trace) (res : Option Err × Trace)
    (hres : ∃ err, res = (some err, (SearchDnsZone etld net tr h).2)) :
    ∃ err ops, res = (some err, tr ++ ops) ∧ ∀ op ∈ ops, op.isPut = false := by
  obtain ⟨ops1, h1, hp1⟩ := SearchDnsZone_ops etld net tr h
  obtain ⟨err, he⟩ := hres
  rw [h1] at he
  exact ⟨err, ops1, he, fun op hop => (hp1 op hop).1⟩

theorem endpointCreate_PZ_snd (etld : String → Except String String) (net : Transport)
    (e : Endpoint) (hpz : e.RecordType = "PZ") (hne : e.Targets ≠ []) (tr : Trace) :
    ∃ err, endpointCreate etld net e tr = (some err, (SearchDnsZone etld net tr e.DNSName).2) := by
  rw [endpointCreate_PZ etld net e hpz hne tr]
  rcases hs : SearchDnsZone etld net tr e.DNSName with ⟨r, tr1⟩
  cases r with
  | error err => exact ⟨err, rfl⟩
  | ok p =>
    obtain ⟨sub, zone⟩ := p
    exact ⟨_, rfl⟩

theorem endpointCreate_unsupported_snd (etld : String → Except String String)
    (net : Transport) (e : Endpoint) (hty : typeCode e.RecordType = none) (tr : Trace) :
    ∃ err, endpointCreate etld net e tr = (some err, (SearchDnsZone etld net tr e.DNSName).2) := by
  rw [endpointCreate_unsupported etld net e hty tr]
  rcases hs : SearchDnsZone etld net tr e.DNSName with ⟨r, tr1⟩
  cases r with
  | error err => exact ⟨err, rfl⟩
  | ok p => exact ⟨_, rfl⟩

/-! ## Record translation -/

/-- Claim C6.  For a record of type PZ (code 7), `convertDnsRecordForApiSave` fails
exactly when `LinkName` is empty or `ParseInt` rejects it; when `LinkName` parses to
`n` the result is the input with `PullzoneId = n`, `LinkName = ""`, `Value = ""` and
every other field unchanged; `"42"` gives 42 and `"abc"` fails; a parsed value lies in
the signed 64-bit range. -/
theorem convertDnsRecordForApiSave_PZ (r : DnsRecord) (hpz : r.Type_ = 7) :
    ((∃ e, convertDnsRecordForApiSave r = .error e) ↔
        (r.LinkName = "" ∨ ∃ e, ParseInt r.LinkName = .error e)) ∧
    (∀ n, ParseInt r.LinkName = .ok n →
        convertDnsRecordForApiSave r =
          .ok { r with PullzoneId := n, LinkName := "", Value := "" }) ∧
    (r.LinkName = "42" →
        convertDnsRecordForApiSave r =
          .ok { r with PullzoneId := 42, LinkName := "", Value := "" }) ∧
    (r.LinkName = "abc" → ∃ e, convertDnsRecordForApiSave r = .error e) ∧
    (∀ n, ParseInt r.LinkName = .ok n → -(2 : Int) ^ 63 ≤ n ∧ n < (2 : Int) ^ 63) := by
  have hgen : ∀ n, ParseInt r.LinkName = .ok n →
      convertDnsRecordForApiSave r =
        .ok { r with PullzoneId := n, LinkName := "", Value := "" } := by
    intro n hn
    have hne : ¬ r.LinkName.length = 0 := by
      intro h0
      rw [(string_length_eq_zero _).mp h0, parseInt_empty] at hn
      cases hn
    simp [convertDnsRecordForApiSave, typeCodeOrZero_PZ, hpz, hne, hn]
  have hfail : ∀ e, ParseInt r.LinkName = .error e →
      ∃ e2, convertDnsRecordForApiSave r = .error e2 := by
    intro e he
    by_cases h0 : r.LinkName.length = 0
    · exact ⟨.new "linkname should contain the Pullzone ID",
        by simp [convertDnsRecordForApiSave, typeCodeOrZero_PZ, hpz, h0]⟩
    · exact ⟨e, by simp [convertDnsRecordForApiSave, typeCodeOrZero_PZ, hpz, h0, he]⟩
  refine ⟨⟨?_, ?_⟩, hgen, ?_, ?_, parseInt_range r.LinkName⟩
  · rintro ⟨e, he⟩
    by_cases h0 : r.LinkName = ""
    · exact Or.inl h0
    · right
      cases hp : ParseInt r.LinkName with
      | error e2 => exact ⟨e2, rfl⟩
      | ok n => rw [hgen n hp] at he; cases he
  · rintro (h0 | ⟨e, he⟩)
    · exact hfail _ (by rw [h0]; exact parseInt_empty)
    · exact hfail e he
  · intro h42
    exact hgen 42 (by rw [h42]; decide)
  · intro habc
    exact hfail (.ext "strconv.ParseInt: invalid syntax") (by rw [habc]; decide)

theorem convertDnsRecordForApiSave_PZ_witness :
    (∃ e, convertDnsRecordForApiSave { Type_ := 7, LinkName := "abc", Value := "v" } = .error e) ∧
    convertDnsRecordForApiSave { Type_ := 7, LinkName := "42", Value := "v", Ttl := 60 } =
      .ok { Type_ := 7, PullzoneId := 42, Ttl := 60 } :=
  ⟨(convertDnsRecordForApiSave_PZ { Type_ := 7, LinkName := "abc", Value := "v" } rfl).2.2.2.1 rfl,
   (convertDnsRecordForApiSave_PZ { Type_ := 7, LinkName := "42", Value := "v", Ttl := 60 }
      rfl).2.2.1 rfl⟩

/-- Claim C9, refuted as stated.  A record of a supported type whose value ends in a
dot becomes an endpoint whose target is the value without that dot, not `[r.Value]`;
and a record of a supported type whose name has a label of 64 bytes yields no endpoint,
although its type is a code of `DNSRecordTypeMap`. -/
theorem convertRecordToEndpoint_normalises :
    typeCode "CNAME" = some 2 ∧
    convertRecordToEndpoint DNSRecordTypeMap zoneEx
        { Type_ := 2, Name := "www", Value := "host.example.net.", Ttl := 60 } =
      some { DNSName := "www.example.com", RecordType := "CNAME", RecordTTL := 60,
             Targets := ["host.example.net"] } ∧
    typeCode "A" = some 0 ∧
    convertRecordToEndpoint DNSRecordTypeMap zoneEx
        { Type_ := 0, Value := "1.2.3.4", Ttl := 60,
          Name := "aaaaaaaaaaaaaaaaaaaaaaaaaaaaaaaaaaaaaaaaaaaaaaaaaaaaaaaaaaaaaaaa" } = none := by
  decide

/-- Claim C9, amended.  Whatever order the map is iterated in, `convertRecordToEndpoint`
yields no endpoint exactly when the record's type is not a code of `DNSRecordTypeMap` or
a label of the name `r.Name + "." + z.Domain` (`z.Domain` for the apex) is longer than
63 bytes; otherwise it yields the endpoint with that name less one trailing dot, the one
type name mapped to `r.Type`, TTL `r.Ttl` and the single target `r.Value` less one
trailing dot, which is the name and `[r.Value]` themselves when neither ends in a dot;
the table is injective; and for a supported type other than PZ
`convertDnsRecordForApiSave` returns the record unchanged, hence translated to the same
endpoint. -/
theorem convertRecordToEndpoint_spec (order : List (String × Nat))
    (hperm : order.Perm DNSRecordTypeMap) (z : DnsZone) (r : DnsRecord) :
    (convertRecordToEndpoint order z r = none ↔
      ((∀ T, typeCode T ≠ some r.Type_) ∨
        labelTooLong (if r.Name = "" then z.Domain else r.Name ++ "." ++ z.Domain) = true)) ∧
    (∀ T, typeCode T = some r.Type_ →
      labelTooLong (if r.Name = "" then z.Domain else r.Name ++ "." ++ z.Domain) = false →
        convertRecordToEndpoint order z r =
          some { DNSName :=
                   TrimSuffix (if r.Name = "" then z.Domain else r.Name ++ "." ++ z.Domain) ".",
                 RecordType := T, RecordTTL := r.Ttl, Targets := [TrimSuffix r.Value "."] }) ∧
    (∀ T, typeCode T = some r.Type_ →
      labelTooLong (if r.Name = "" then z.Domain else r.Name ++ "." ++ z.Domain) = false →
      HasSuffix (if r.Name = "" then z.Domain else r.Name ++ "." ++ z.Domain) "." = false →
      HasSuffix r.Value "." = false →
        convertRecordToEndpoint order z r =
          some { DNSName := if r.Name = "" then z.Domain else r.Name ++ "." ++ z.Domain,
                 RecordType := T, RecordTTL := r.Ttl, Targets := [r.Value] }) ∧
    (∀ T T2 c, typeCode T = some c → typeCode T2 = some c → T = T2) ∧
    (∀ T, typeCode T = some r.Type_ → T ≠ "PZ" →
        convertDnsRecordForApiSave r = .ok r ∧
        ∃ w, convertDnsRecordForApiSave r = .ok w ∧
          convertRecordToEndpoint order z w = convertRecordToEndpoint order z r) := by
  have hnd : (order.map Prod.snd).Nodup :=
    ((hperm.map Prod.snd).nodup_iff).mpr (by decide)
  have hfound : ∀ T, typeCode T = some r.Type_ →
      convertRecordToEndpoint order z r =
        NewEndpointWithTTL (if r.Name = "" then z.Domain else r.Name ++ "." ++ z.Domain) T
          r.Ttl [r.Value] := by
    intro T hT
    have hmem : (T, r.Type_) ∈ DNSRecordTypeMap := (typeCode_iff_mem _ _).mp hT
    have hfind : findTypeName r.Type_ order = T :=
      findTypeName_of_mem _ _ hnd _ (hperm.mem_iff.mpr hmem)
    have hne : T ≠ "" := typeName_ne_empty _ _ hmem
    simp only [convertRecordToEndpoint, hfind, hne, if_false]
  have hsome : ∀ T, typeCode T = some r.Type_ →
      labelTooLong (if r.Name = "" then z.Domain else r.Name ++ "." ++ z.Domain) = false →
      convertRecordToEndpoint order z r =
        some { DNSName :=
                 TrimSuffix (if r.Name = "" then z.Domain else r.Name ++ "." ++ z.Domain) ".",
               RecordType := T, RecordTTL := r.Ttl, Targets := [TrimSuffix r.Value "."] } := by
    intro T hT hlong
    rw [hfound T hT]
    simp [NewEndpointWithTTL, hlong]
  refine ⟨⟨?_, ?_⟩, hsome, ?_, typeCode_injective, ?_⟩
  · intro hnone
    by_cases hall : ∀ T, typeCode T ≠ some r.Type_
    · exact Or.inl hall
    · right
      push_neg at hall
      obtain ⟨T, hT⟩ := hall
      cases hlong : labelTooLong (if r.Name = "" then z.Domain else r.Name ++ "." ++ z.Domain)
        with
      | true => rfl
      | false =>
        rw [hsome T hT hlong] at hnone
        cases hnone
  · rintro (hall | hlong)
    · have hfind : findTypeName r.Type_ order = "" := by
        apply findTypeName_of_not_mem
        intro k hk
        exact hall k ((typeCode_iff_mem _ _).mpr (hperm.mem_iff.mp hk))
      simp [convertRecordToEndpoint, hfind]
    · by_cases hall : ∀ T, typeCode T ≠ some r.Type_
      · have hfind : findTypeName r.Type_ order = "" := by
          apply findTypeName_of_not_mem
          intro k hk
          exact hall k ((typeCode_iff_mem _ _).mpr (hperm.mem_iff.mp hk))
        simp [convertRecordToEndpoint, hfind]
      · push_neg at hall
        obtain ⟨T, hT⟩ := hall
        rw [hfound T hT]
        simp [NewEndpointWithTTL, hlong]
  · intro T hT hlong hname hvalue
    rw [hsome T hT hlong]
    simp only [TrimSuffix, hname, hvalue]
    simp
  · intro T hT hTne
    have h7 : r.Type_ ≠ 7 := by
      intro h7
      rw [h7] at hT
      exact hTne (typeCode_injective T "PZ" 7 hT (by decide))
    have hconv : convertDnsRecordForApiSave r = .ok r := by
      simp [convertDnsRecordForApiSave, typeCodeOrZero_PZ, h7]
    exact ⟨hconv, r, hconv, rfl⟩

theorem convertRecordToEndpoint_spec_witness :
    convertRecordToEndpoint DNSRecordTypeMap.reverse zoneEx
        { Type_ := 2, Name := "www", Value := "a.b", Ttl := 60 } =
      some { DNSName := "www.example.com", RecordType := "CNAME", RecordTTL := 60,
             Targets := ["a.b"] } ∧
    convertRecordToEndpoint DNSRecordTypeMap.reverse zoneEx
        { Type_ := 2, Name := "www", Value := "a.b.", Ttl := 60 } =
      some { DNSName := TrimSuffix "www.example.com" ".", RecordType := "CNAME",
             RecordTTL := 60, Targets := [TrimSuffix "a.b." "."] } ∧
    (convertRecordToEndpoint DNSRecordTypeMap.reverse zoneEx { Type_ := 4 } = none) :=
  ⟨(convertRecordToEndpoint_spec DNSRecordTypeMap.reverse (List.reverse_perm _) zoneEx
      { Type_ := 2, Name := "www", Value := "a.b", Ttl := 60 }).2.2.1 "CNAME" (by decide)
      (by decide) (by decide) (by decide),
   (convertRecordToEndpoint_spec DNSRecordTypeMap.reverse (List.reverse_perm _) zoneEx
      { Type_ := 2, Name := "www", Value := "a.b.", Ttl := 60 }).2.1 "CNAME" (by decide)
      (by decide),
   (convertRecordToEndpoint_spec DNSRecordTypeMap.reverse (List.reverse_perm _) zoneEx
      { Type_ := 4 }).1.mpr (Or.inl (by
        intro T hT
        have h := (typeCode_iff_mem T 4).mp hT
        simp [DNSRecordTypeMap] at h))⟩

/-! ## Zone resolution -/

/-- Claim C7.  When `etld h = d` (so that `h` is `d`, or `sub ++ "." ++ d`), the search
for `d` answers 200 with a decodable list, and the list has a zone with `Domain = d`,
`SearchDnsZone h` issues that one search and returns the first zone of the list with
`Domain = d` together with `sub` (empty when `h = d`); and any zone `SearchDnsZone`
ever returns has `Domain` equal to the registrable domain of the hostname. -/
theorem SearchDnsZone_resolves (etld : String → Except String String) (net : Transport)
    (tr : Trace) (h d sub : String) (resp : Response) (items : List DnsZone)
    (hetld : etld h = .ok d)
    (hshape : (h = d ∧ sub = "") ∨ h = sub ++ "." ++ d)
    (hnet : net tr (.searchZones d) = .ok resp) (hstatus : resp.StatusCode = 200)
    (hitems : resp.Items = .ok items) (hz : ∃ z ∈ items, z.Domain = d) :
    (∃ z1 pre post,
        SearchDnsZone etld net tr h = (.ok (sub, z1), tr ++ [.searchZones d]) ∧
        z1.Domain = d ∧ items = pre ++ z1 :: post ∧ ∀ y ∈ pre, y.Domain ≠ d) ∧
    (∀ (net2 : Transport) (tr2 : Trace) (h2 s2 : String) (z2 : DnsZone) (tr3 : Trace),
        SearchDnsZone etld net2 tr2 h2 = (.ok (s2, z2), tr3) → etld h2 = .ok z2.Domain) := by
  refine ⟨?_, fun net2 tr2 h2 s2 z2 tr3 hres => SearchDnsZone_ok_etld etld net2 tr2 h2 s2 z2 tr3 hres⟩
  obtain ⟨z1, pre, post, hfirst, hdom, hsplit, hpre⟩ := firstWithDomain_first d items hz
  refine ⟨z1, pre, post, ?_, hdom, hsplit, hpre⟩
  rw [SearchDnsZone_of_cut etld net tr h d sub hetld hshape,
    searchDnsZone_found net tr d resp items z1 hnet hstatus hitems hfirst]

theorem SearchDnsZone_resolves_witness :
    ∃ z1 pre post,
      SearchDnsZone etldEx netOk [] "sub.example.com" =
        (.ok ("sub", z1), [] ++ [.searchZones "example.com"]) ∧
      z1.Domain = "example.com" ∧
      [{ Id := 4, Domain := "notexample.com" }, zoneEx] = pre ++ z1 :: post ∧
      ∀ y ∈ pre, y.Domain ≠ "example.com" :=
  (SearchDnsZone_resolves etldEx netOk [] "sub.example.com" "example.com" "sub"
    { StatusCode := 200, Status := "200 OK",
      Items := .ok [{ Id := 4, Domain := "notexample.com" }, zoneEx] }
    [{ Id := 4, Domain := "notexample.com" }, zoneEx]
    (by decide) (Or.inr (by decide)) rfl rfl rfl ⟨zoneEx, by decide, by decide⟩).1

/-- Claim C8, refuted as stated.  With no matching zone the caller gets
"no DnsZone found", but when the public-suffix computation fails the caller gets the
library's own error, and no search is issued. -/
theorem SearchDnsZone_etld_error_not_collapsed :
    SearchDnsZone etldEx netOk [] "other.org" =
      (.error (.new "no DnsZone found"), [.searchZones "other.org"]) ∧
    SearchDnsZone etldEx netOk [] "com" =
      (.error (.ext "publicsuffix: cannot derive eTLD+1 for domain \"com\""), []) ∧
    (SearchDnsZone etldEx netOk [] "com").1 ≠ (SearchDnsZone etldEx netOk [] "other.org").1 := by
  decide

/-- Claim C8, amended.  When the registrable domain `d` of the hostname is computed,
every failure of the zone search (the request fails, is answered with a status other
than 200, has a body that cannot be decoded, or lists no zone with `Domain = d`) is
reported as the one error "no DnsZone found"; when the public-suffix computation fails,
the library's error is returned unchanged and no search is issued. -/
theorem SearchDnsZone_failure_errors (etld : String → Except String String)
    (net : Transport) (tr : Trace) (h : String) :
    (∀ e, etld h = .error e → SearchDnsZone etld net tr h = (.error (.ext e), tr)) ∧
    (∀ d sub, etld h = .ok d → ((h = d ∧ sub = "") ∨ h = sub ++ "." ++ d) →
      ((∃ e0, net tr (.searchZones d) = .error e0) ∨
        ∃ resp, net tr (.searchZones d) = .ok resp ∧
          (resp.StatusCode ≠ 200 ∨ (∃ e1, resp.Items = .error e1) ∨
            ∃ items, resp.Items = .ok items ∧ ∀ z ∈ items, z.Domain ≠ d)) →
      SearchDnsZone etld net tr h =
        (.error (.new "no DnsZone found"), tr ++ [.searchZones d])) := by
  constructor
  · intro e he
    simp [SearchDnsZone, he]
  · intro d sub hetld hshape hfail
    obtain ⟨e, he⟩ := searchDnsZone_fails net tr d hfail
    have htr := searchDnsZone_trace net tr d
    rw [SearchDnsZone_of_cut etld net tr h d sub hetld hshape]
    rcases hs : searchDnsZone net tr d with ⟨r, tr1⟩
    rw [hs] at he htr
    simp only at he htr
    subst he htr
    rfl

theorem SearchDnsZone_failure_errors_witness :
    SearchDnsZone etldEx netOk [] "" =
      (.error (.ext "publicsuffix: cannot derive eTLD+1 for domain \"\""), []) ∧
    SearchDnsZone etldEx netOk [] "other.org" =
      (.error (.new "no DnsZone found"), [] ++ [.searchZones "other.org"]) :=
  ⟨(SearchDnsZone_failure_errors etldEx netOk [] "").1 _ (by decide),
   (SearchDnsZone_failure_errors etldEx netOk [] "other.org").2 "other.org" ""
      (by decide) (Or.inl ⟨rfl, rfl⟩)
      (Or.inr ⟨{ StatusCode := 200, Status := "200 OK",
                 Items := .ok [{ Id := 4, Domain := "notexample.com" }, zoneEx] }, rfl,
        Or.inr (Or.inr ⟨_, rfl, by decide⟩)⟩)⟩

/-! ## Deletion of an endpoint -/

/-- Claim C3.  For an endpoint of a supported type whose name resolves to
`(sub, zone)`, when every deletion in that zone is answered 204 or 404,
`endpointDelete` returns no error and, after the resolution, issues exactly the
deletions `DeleteDnsRecord(zone.Id, record.Id)` for each target in order and each
record of `zone.Records` in order with `Name = sub`, `Type` the mapped code and
`Value` the target; a 404 does not stop the later ones. -/
theorem endpointDelete_deletes_matches (etld : String → Except String String)
    (net : Transport) (e : Endpoint) (tr : Trace) (ty : Nat) (sub : String) (zone : DnsZone)
    (tr1 : Trace) (hty : typeCode e.RecordType = some ty)
    (hres : SearchDnsZone etld net tr e.DNSName = (.ok (sub, zone), tr1))
    (hdel : ∀ tr2, ∀ record ∈ zone.Records, ∃ resp,
      net tr2 (.deleteRecord zone.Id record.Id) = .ok resp ∧
        (resp.StatusCode = 204 ∨ resp.StatusCode = 404)) :
    endpointDelete etld net e tr =
      (none, tr1 ++ e.Targets.flatMap (fun target =>
        (zone.Records.filter
          (fun record => record.Name = sub ∧ record.Type_ = ty ∧ record.Value = target)).map
            (fun record => .deleteRecord zone.Id record.Id))) := by
  simp only [endpointDelete, hty, hres]
  exact deleteTargets_all net zone sub ty hdel e.Targets tr1

theorem endpointDelete_deletes_matches_witness :
    endpointDelete etldEx (netEx "" 11 0)
        { DNSName := "www.example.com", RecordType := "A", Targets := ["9.9.9.9", "1.2.3.4"] } [] =
      (none, [.searchZones "example.com", .deleteRecord 5 12, .deleteRecord 5 11,
        .deleteRecord 5 13]) :=
  endpointDelete_deletes_matches etldEx (netEx "" 11 0)
    { DNSName := "www.example.com", RecordType := "A", Targets := ["9.9.9.9", "1.2.3.4"] } []
    0 "www" zoneEx [.searchZones "example.com"] (by decide) (by decide)
    (by
      intro tr2 record hrec
      by_cases h11 : record.Id = 11
      · exact ⟨{ StatusCode := 404, Status := "404 Not Found" }, by simp [netEx, zoneEx, h11],
          Or.inr rfl⟩
      · have h0 : record.Id ≠ 0 := by
          simp [zoneEx] at hrec
          rcases hrec with h | h | h <;> (rw [h]; decide)
        exact ⟨{ StatusCode := 204, Status := "204 No Content" },
          by simp [netEx, zoneEx, h11, h0], Or.inl rfl⟩)

/-! ## Creation of an endpoint -/

/-- Claim C4.  For an endpoint of a supported type name `T` whose name resolves to
`(sub, zone)` and for which every `CreateDnsRecord` call succeeds, `endpointCreate`
returns no error and, after the resolution, submits exactly one creation per target, in
target order, each carrying the record with `Zone = zone.Id`, `Name = sub`,
`Type = DNSRecordTypeMap[T]`, `Value` the target, and `Ttl` 300 when the endpoint's TTL
is below 1 and the endpoint's TTL otherwise. -/
theorem endpointCreate_one_per_target (etld : String → Except String String)
    (net : Transport) (e : Endpoint) (tr : Trace) (ty : Nat) (sub : String) (zone : DnsZone)
    (tr1 : Trace) (hty : typeCode e.RecordType = some ty)
    (hres : SearchDnsZone etld net tr e.DNSName = (.ok (sub, zone), tr1))
    (hcreate : ∀ tr2, ∀ target ∈ e.Targets,
      (CreateDnsRecord net tr2
        { Zone := zone.Id, Name := sub, Type_ := ty, Value := target,
          Ttl := if e.RecordTTL < 1 then 300 else e.RecordTTL }).1 = none) :
    endpointCreate etld net e tr =
      (none, tr1 ++ e.Targets.map (fun target => .putRecord zone.Id
        { Zone := zone.Id, Name := sub, Type_ := ty, Value := target,
          Ttl := if e.RecordTTL < 1 then 300 else e.RecordTTL })) := by
  simp only [endpointCreate, hres, hty]
  exact createTargets_all net zone sub ty _ e.Targets hcreate tr1

theorem endpointCreate_one_per_target_witness :
    endpointCreate etldEx netOk
        { DNSName := "www.example.com", RecordType := "AAAA", Targets := ["::1", "::2"],
          RecordTTL := 0 } [] =
      (none, [.searchZones "example.com",
        .putRecord 5 { Zone := 5, Name := "www", Type_ := 1, Value := "::1", Ttl := 300 },
        .putRecord 5 { Zone := 5, Name := "www", Type_ := 1, Value := "::2", Ttl := 300 }]) :=
  endpointCreate_one_per_target etldEx netOk
    { DNSName := "www.example.com", RecordType := "AAAA", Targets := ["::1", "::2"],
      RecordTTL := 0 } [] 1 "www" zoneEx [.searchZones "example.com"] (by decide) (by decide)
    (by
      intro tr2 target _
      rw [CreateDnsRecord_built]
      simp [zoneEx, doRequest, netOk])

/-! ## Unsupported and PZ endpoints -/

/-- Claim C5, refuted as stated.  An `MX` endpoint in Create whose name does not
resolve to a zone makes the apply fail with "no DnsZone found", not with the
unsupported-record-type error. -/
theorem ApplyChanges_unsupported_create_other_error :
    typeCode "MX" = none ∧
    ApplyChanges etldEx netOk
        { Create := [{ DNSName := "other.org", RecordType := "MX", Targets := ["mail"] }] } [] =
      (some (.new "no DnsZone found"), [.searchZones "other.org"]) := by
  decide

/-- Claim C5, amended.  For an endpoint whose type name is not a key of
`DNSRecordTypeMap`: in Delete or UpdateOld it is a no-op without error and without
request; in Create or UpdateNew, when its name resolves to a zone the apply fails with
the unsupported-record-type error, when the resolution fails it fails with the
resolution error, in both cases no creation is requested, and any batch holding it in
Create or UpdateNew fails. -/
theorem unsupported_type_paths (etld : String → Except String String) (net : Transport)
    (e : Endpoint) (hty : typeCode e.RecordType = none) :
    (∀ tr, endpointDelete etld net e tr = (none, tr) ∧
      ApplyChanges etld net { Delete := [e] } tr = (none, tr) ∧
      ApplyChanges etld net { UpdateOld := [e] } tr = (none, tr)) ∧
    (∀ tr sub zone tr1, SearchDnsZone etld net tr e.DNSName = (.ok (sub, zone), tr1) →
      endpointCreate etld net e tr =
        (some (.new ("Unsupported DNS record type: " ++ e.RecordType)), tr1) ∧
      ApplyChanges etld net { Create := [e] } tr =
        (some (.new ("Unsupported DNS record type: " ++ e.RecordType)), tr1) ∧
      ApplyChanges etld net { UpdateNew := [e] } tr =
        (some (.new ("Unsupported DNS record type: " ++ e.RecordType)), tr1)) ∧
    (∀ tr err tr1, SearchDnsZone etld net tr e.DNSName = (.error err, tr1) →
      endpointCreate etld net e tr = (some err, tr1)) ∧
    (∀ tr, ∃ err ops, endpointCreate etld net e tr = (some err, tr ++ ops) ∧
      ∀ op ∈ ops, op.isPut = false) ∧
    (∀ ch tr, (e ∈ ch.Create ∨ e ∈ ch.UpdateNew) → (ApplyChanges etld net ch tr).1 ≠ none) := by
  have hdel : ∀ tr, endpointDelete etld net e tr = (none, tr) := by
    intro tr
    simp only [endpointDelete, hty]
  have hfail : ∀ tr, ∃ err ops, endpointCreate etld net e tr = (some err, tr ++ ops) ∧
      ∀ op ∈ ops, op.isPut = false := by
    intro tr
    exact fails_after_search etld net e.DNSName tr _
      (endpointCreate_unsupported_snd etld net e hty tr)
  refine ⟨?_, ?_, ?_, hfail, ?_⟩
  · intro tr
    have h1 := ApplyChanges_single_delete etld net e tr
    rw [hdel tr] at h1
    exact ⟨hdel tr, h1.1, h1.2⟩
  · intro tr sub zone tr1 hres
    have h1 := ApplyChanges_single_create etld net e tr
    have h2 : endpointCreate etld net e tr =
        (some (.new ("Unsupported DNS record type: " ++ e.RecordType)), tr1) := by
      rw [endpointCreate_unsupported etld net e hty tr, hres]
    rw [h2] at h1
    exact ⟨h2, h1.1, h1.2⟩
  · intro tr err tr1 hres
    rw [endpointCreate_unsupported etld net e hty tr, hres]
  · intro ch tr hmem
    apply ApplyChanges_fails_of_create etld net e _ ch hmem tr
    intro tr2
    obtain ⟨err, ops, h, _⟩ := hfail tr2
    rw [h]
    simp

theorem unsupported_type_paths_witness :
    endpointCreate etldEx netOk
        { DNSName := "www.example.com", RecordType := "MX", Targets := ["mail"] } [] =
      (some (.new ("Unsupported DNS record type: " ++ "MX")), [.searchZones "example.com"]) ∧
    ApplyChanges etldEx netOk
        { Delete := [{ DNSName := "www.example.com", RecordType := "MX", Targets := ["mail"] }] }
        [] = (none, []) ∧
    endpointCreate etldEx netOk
        { DNSName := "other.org", RecordType := "MX", Targets := ["mail"] } [] =
      (some (.new "no DnsZone found"), [.searchZones "other.org"]) :=
  ⟨((unsupported_type_paths etldEx netOk
      { DNSName := "www.example.com", RecordType := "MX", Targets := ["mail"] }
      (by decide)).2.1 [] "www" zoneEx [.searchZones "example.com"] (by decide)).1,
   ((unsupported_type_paths etldEx netOk
      { DNSName := "www.example.com", RecordType := "MX", Targets := ["mail"] }
      (by decide)).1 []).2.1,
   (unsupported_type_paths etldEx netOk
      { DNSName := "other.org", RecordType := "MX", Targets := ["mail"] }
      (by decide)).2.2.1 [] _ _ (by decide)⟩

/-- Claim C10.  For an endpoint of type `PZ` with at least one target: when its name
resolves to a zone, `endpointCreate` fails on the first target before any request
("zone is required" on a zero zone identifier, otherwise the missing `LinkName`);
whatever the resolution, `endpointCreate` returns an error and requests no creation;
and `ApplyChanges` fails on any batch holding the endpoint in Create or UpdateNew. -/
theorem endpointCreate_PZ_fails (etld : String → Except String String) (net : Transport)
    (e : Endpoint) (hpz : e.RecordType = "PZ") (hne : e.Targets ≠ []) :
    (∀ tr sub zone tr1, SearchDnsZone etld net tr e.DNSName = (.ok (sub, zone), tr1) →
      endpointCreate etld net e tr =
        (some (if zone.Id = 0 then .new "zone is required"
          else .new "linkname should contain the Pullzone ID"), tr1)) ∧
    (∀ tr, ∃ err ops, endpointCreate etld net e tr = (some err, tr ++ ops) ∧
      ∀ op ∈ ops, op.isPut = false) ∧
    (∀ ch tr, (e ∈ ch.Create ∨ e ∈ ch.UpdateNew) → (ApplyChanges etld net ch tr).1 ≠ none) ∧
    (∀ tr, ApplyChanges etld net { Create := [e] } tr = endpointCreate etld net e tr ∧
      ApplyChanges etld net { UpdateNew := [e] } tr = endpointCreate etld net e tr) := by
  have hfail : ∀ tr, ∃ err ops, endpointCreate etld net e tr = (some err, tr ++ ops) ∧
      ∀ op ∈ ops, op.isPut = false := by
    intro tr
    exact fails_after_search etld net e.DNSName tr _
      (endpointCreate_PZ_snd etld net e hpz hne tr)
  refine ⟨?_, hfail, ?_, ApplyChanges_single_create etld net e⟩
  · intro tr sub zone tr1 hres
    rw [endpointCreate_PZ etld net e hpz hne tr, hres]
  · intro ch tr hmem
    apply ApplyChanges_fails_of_create etld net e _ ch hmem tr
    intro tr2
    obtain ⟨err, ops, h, _⟩ := hfail tr2
    rw [h]
    simp

theorem endpointCreate_PZ_fails_witness :
    endpointCreate etldEx netOk
        { DNSName := "cdn.example.com", RecordType := "PZ", Targets := ["42"] } [] =
      (some (if zoneEx.Id = 0 then .new "zone is required"
          else .new "linkname should contain the Pullzone ID"), [.searchZones "example.com"]) ∧
    (ApplyChanges etldEx netOk
        { Create := [{ DNSName := "www.example.com", RecordType := "A", Targets := ["1.1.1.1"] }],
          UpdateNew := [{ DNSName := "cdn.example.com", RecordType := "PZ", Targets := ["42"] }] }
        []).1 ≠ none :=
  ⟨(endpointCreate_PZ_fails etldEx netOk
      { DNSName := "cdn.example.com", RecordType := "PZ", Targets := ["42"] } rfl
      (by decide)).1 [] "cdn" zoneEx [.searchZones "example.com"] (by decide),
   (endpointCreate_PZ_fails etldEx netOk
      { DNSName := "cdn.example.com", RecordType := "PZ", Targets := ["42"] } rfl
      (by decide)).2.2.1 _ [] (Or.inr (List.mem_singleton.mpr rfl))⟩

/-! ## The batch -/

/-- Claim C1, refuted as stated.  Every remote call of this batch succeeds, yet the
requests of `ApplyChanges` are not those of `endpointCreate` over every Create endpoint:
the first endpoint has an unsupported type, the apply stops there, and the second
endpoint, whose creation would have been requested, is never processed. -/
theorem ApplyChanges_stops_without_remote_failure :
    ApplyChanges etldEx netOk
        { Create := [{ DNSName := "www.example.com", RecordType := "MX", Targets := ["mail"] },
                     { DNSName := "www.example.com", RecordType := "A", Targets := ["5.6.7.8"] }] }
        [] =
      (some (.new "Unsupported DNS record type: MX"), [.searchZones "example.com"]) ∧
    endpointCreate etldEx netOk
        { DNSName := "www.example.com", RecordType := "A", Targets := ["5.6.7.8"] }
        [.searchZones "example.com"] =
      (none, [.searchZones "example.com", .searchZones "example.com",
        .putRecord 5 { Zone := 5, Name := "www", Type_ := 0, Value := "5.6.7.8", Ttl := 300 }]) := by
  decide

/-- Claim C1, amended.  `ApplyChanges` returns no error exactly when every Delete
endpoint is processed by `endpointDelete` in list order, then every UpdateOld endpoint
by `endpointDelete`, then every Create endpoint by `endpointCreate`, then every
UpdateNew endpoint by `endpointCreate`, each without error and each starting from the
requests left by the one before; and in every run, failed or not, the requests issued
split into a first part without creation and a second part without deletion. -/
theorem ApplyChanges_lists_in_order (etld : String → Except String String)
    (net : Transport) (ch : Changes) (tr : Trace) :
    (∀ tr4, ApplyChanges etld net ch tr = (none, tr4) ↔
      ∃ tr1 tr2 tr3,
        AllSucceed (endpointDelete etld net) ch.Delete tr tr1 ∧
        AllSucceed (endpointDelete etld net) ch.UpdateOld tr1 tr2 ∧
        AllSucceed (endpointCreate etld net) ch.Create tr2 tr3 ∧
        AllSucceed (endpointCreate etld net) ch.UpdateNew tr3 tr4) ∧
    (∃ dops cops, (ApplyChanges etld net ch tr).2 = tr ++ dops ++ cops ∧
      (∀ op ∈ dops, op.isPut = false) ∧ (∀ op ∈ cops, op.isDelete = false)) :=
  ⟨fun tr4 => ApplyChanges_none_iff etld net ch tr tr4, ApplyChanges_ops etld net ch tr⟩

theorem ApplyChanges_lists_in_order_witness :
    ApplyChanges etldEx netOk
        { Delete := [{ DNSName := "www.example.com", RecordType := "A", Targets := ["1.2.3.4"] }],
          Create := [{ DNSName := "www.example.com", RecordType := "A", Targets := ["5.6.7.8"] }] }
        [] =
      (none, [.searchZones "example.com", .deleteRecord 5 11, .deleteRecord 5 13,
        .searchZones "example.com",
        .putRecord 5 { Zone := 5, Name := "www", Type_ := 0, Value := "5.6.7.8", Ttl := 300 }]) :=
  ((ApplyChanges_lists_in_order etldEx netOk
    { Delete := [{ DNSName := "www.example.com", RecordType := "A", Targets := ["1.2.3.4"] }],
      Create := [{ DNSName := "www.example.com", RecordType := "A", Targets := ["5.6.7.8"] }] }
    []).1 _).mpr
    ⟨[.searchZones "example.com", .deleteRecord 5 11, .deleteRecord 5 13],
     [.searchZones "example.com", .deleteRecord 5 11, .deleteRecord 5 13],
     [.searchZones "example.com", .deleteRecord 5 11, .deleteRecord 5 13,
        .searchZones "example.com",
        .putRecord 5 { Zone := 5, Name := "www", Type_ := 0, Value := "5.6.7.8", Ttl := 300 }],
     ⟨_, by decide, rfl⟩, rfl, ⟨_, by decide, rfl⟩, rfl⟩

/-- Claim C2.  The first failure ends the apply: (1) when the endpoints before `x` in
the visiting order are processed without error and `x` fails with `err`, `ApplyChanges`
returns `err` with the requests issued up to that failure, nothing from the later
endpoints and lists; (2) a failed zone resolution is returned as it is by both paths;
(3) in `endpointCreate` the first failing `CreateDnsRecord` call ends the endpoint with
its error, the later targets untouched; (4) in `endpointDelete` the first
`DeleteDnsRecord` call failing with another error than not-found ends the endpoint with
its error, the later records and targets untouched. -/
theorem ApplyChanges_first_error_aborts (etld : String → Except String String)
    (net : Transport) :
    (∀ (ch : Changes) (pre : List Step) (x : Step) (post : List Step) (tr tr1 tr2 : Trace)
        (err : Err), Changes.steps ch = pre ++ x :: post →
      AllSucceed (runStep etld net) pre tr tr1 → runStep etld net x tr1 = (some err, tr2) →
      ApplyChanges etld net ch tr = (some err, tr2)) ∧
    (∀ (e : Endpoint) (tr : Trace) (err : Err) (tr1 : Trace),
      SearchDnsZone etld net tr e.DNSName = (.error err, tr1) →
      endpointCreate etld net e tr = (some err, tr1) ∧
      (typeCode e.RecordType ≠ none → endpointDelete etld net e tr = (some err, tr1))) ∧
    (∀ (e : Endpoint) (tr : Trace) (sub : String) (zone : DnsZone) (tr1 : Trace) (ty : Nat)
        (tpre : List String) (t : String) (tpost : List String) (tr2 tr3 : Trace) (err : Err),
      SearchDnsZone etld net tr e.DNSName = (.ok (sub, zone), tr1) →
      typeCode e.RecordType = some ty → e.Targets = tpre ++ t :: tpost →
      AllSucceed (fun target tr => CreateDnsRecord net tr
        { Zone := zone.Id, Name := sub, Type_ := ty, Value := target,
          Ttl := if e.RecordTTL < 1 then 300 else e.RecordTTL }) tpre tr1 tr2 →
      CreateDnsRecord net tr2
        { Zone := zone.Id, Name := sub, Type_ := ty, Value := t,
          Ttl := if e.RecordTTL < 1 then 300 else e.RecordTTL } = (some err, tr3) →
      endpointCreate etld net e tr = (some err, tr3)) ∧
    (∀ (e : Endpoint) (tr : Trace) (sub : String) (zone : DnsZone) (tr1 : Trace) (ty : Nat)
        (tpre : List String) (t : String) (tpost : List String) (rpre : List DnsRecord)
        (r : DnsRecord) (rpost : List DnsRecord) (tr2 tr3 tr4 : Trace) (err : Err),
      typeCode e.RecordType = some ty →
      SearchDnsZone etld net tr e.DNSName = (.ok (sub, zone), tr1) →
      e.Targets = tpre ++ t :: tpost → zone.Records = rpre ++ r :: rpost →
      deleteTargets net zone sub ty tpre tr1 = (none, tr2) →
      deleteRecords net zone sub ty t rpre tr2 = (none, tr3) →
      (r.Name = sub ∧ r.Type_ = ty ∧ r.Value = t) →
      DeleteDnsRecord net tr3 zone.Id r.Id = (some err, tr4) → err ≠ .ErrRecordNotFound →
      endpointDelete etld net e tr = (some err, tr4)) := by
  refine ⟨?_, ?_, ?_, ?_⟩
  · intro ch pre x post tr tr1 tr2 err hsteps hpre hx
    rw [ApplyChanges_eq_steps, hsteps]
    exact forEach_fail_at (runStep etld net) pre x post tr tr1 tr2 err hpre hx
  · intro e tr err tr1 hres
    constructor
    · simp only [endpointCreate, hres]
    · intro hty
      cases h : typeCode e.RecordType with
      | none => exact absurd h hty
      | some ty => simp only [endpointDelete, h, hres]
  · intro e tr sub zone tr1 ty tpre t tpost tr2 tr3 err hres hty htargets hpre hfail
    simp only [endpointCreate, hres, hty, htargets]
    exact createTargets_fail_at net zone sub ty _ tpre t tpost tr1 tr2 tr3 err hpre hfail
  · intro e tr sub zone tr1 ty tpre t tpost rpre r rpost tr2 tr3 tr4 err hty hres htargets
      hrecs htpre hrpre hm hfail hne
    simp only [endpointDelete, hty, hres, htargets]
    exact deleteTargets_fail_at net zone sub ty tpre t tpost rpre r rpost tr1 tr2 tr3 tr4 err
      hrecs htpre hrpre hm hfail hne

theorem ApplyChanges_first_error_aborts_witness :
    ApplyChanges etldEx (netEx "bad" 11 13)
        { Delete := [{ DNSName := "www.example.com", RecordType := "A", Targets := ["9.9.9.9"] }],
          Create := [{ DNSName := "www.example.com", RecordType := "A",
                       Targets := ["5.6.7.8", "bad", "7.7.7.7"] },
                     { DNSName := "example.com", RecordType := "A", Targets := ["8.8.8.8"] }] }
        [] =
      (some (.new "create DNS record failed with 500 Internal Server Error"),
        [.searchZones "example.com", .deleteRecord 5 12, .searchZones "example.com",
         .putRecord 5 { Zone := 5, Name := "www", Type_ := 0, Value := "5.6.7.8", Ttl := 300 },
         .putRecord 5 { Zone := 5, Name := "www", Type_ := 0, Value := "bad", Ttl := 300 }]) ∧
    endpointDelete etldEx (netEx "bad" 11 13)
        { DNSName := "www.example.com", RecordType := "A", Targets := ["1.2.3.4", "9.9.9.9"] } [] =
      (some (.new "500 Internal Server Error"),
        [.searchZones "example.com", .deleteRecord 5 11, .deleteRecord 5 13]) ∧
    endpointDelete etldEx netOk
        { DNSName := "other.org", RecordType := "A", Targets := ["1.1.1.1"] } [] =
      (some (.new "no DnsZone found"), [.searchZones "other.org"]) ∧
    endpointCreate etldEx (netEx "bad" 11 13)
        { DNSName := "www.example.com", RecordType := "A",
          Targets := ["5.6.7.8", "bad", "7.7.7.7"], RecordTTL := 120 } [] =
      (some (.new "create DNS record failed with 500 Internal Server Error"),
        [.searchZones "example.com",
         .putRecord 5 { Zone := 5, Name := "www", Type_ := 0, Value := "5.6.7.8", Ttl := 120 },
         .putRecord 5 { Zone := 5, Name := "www", Type_ := 0, Value := "bad", Ttl := 120 }]) :=
  ⟨(ApplyChanges_first_error_aborts etldEx (netEx "bad" 11 13)).1
      { Delete := [{ DNSName := "www.example.com", RecordType := "A", Targets := ["9.9.9.9"] }],
        Create := [{ DNSName := "www.example.com", RecordType := "A",
                     Targets := ["5.6.7.8", "bad", "7.7.7.7"] },
                   { DNSName := "example.com", RecordType := "A", Targets := ["8.8.8.8"] }] }
      [.delete { DNSName := "www.example.com", RecordType := "A", Targets := ["9.9.9.9"] }]
      (.create { DNSName := "www.example.com", RecordType := "A",
                 Targets := ["5.6.7.8", "bad", "7.7.7.7"] })
      [.create { DNSName := "example.com", RecordType := "A", Targets := ["8.8.8.8"] }]
      [] [.searchZones "example.com", .deleteRecord 5 12] _ _
      (by decide) ⟨_, by decide, rfl⟩ (by decide),
   (ApplyChanges_first_error_aborts etldEx (netEx "bad" 11 13)).2.2.2
      { DNSName := "www.example.com", RecordType := "A", Targets := ["1.2.3.4", "9.9.9.9"] } []
      "www" zoneEx [.searchZones "example.com"] 0 [] "1.2.3.4" ["9.9.9.9"]
      [{ Id := 11, Type_ := 0, Name := "www", Value := "1.2.3.4", Ttl := 60 },
       { Id := 12, Type_ := 0, Name := "www", Value := "9.9.9.9", Ttl := 60 }]
      { Id := 13, Type_ := 0, Name := "www", Value := "1.2.3.4", Ttl := 60 } []
      [.searchZones "example.com"] [.searchZones "example.com", .deleteRecord 5 11]
      [.searchZones "example.com", .deleteRecord 5 11, .deleteRecord 5 13]
      (.new "500 Internal Server Error")
      (by decide) (by decide) rfl (by decide) (by decide) (by decide) (by decide) (by decide)
      (by decide),
   ((ApplyChanges_first_error_aborts etldEx netOk).2.1
      { DNSName := "other.org", RecordType := "A", Targets := ["1.1.1.1"] } []
      (.new "no DnsZone found") [.searchZones "other.org"] (by decide)).2 (by decide),
   (ApplyChanges_first_error_aborts etldEx (netEx "bad" 11 13)).2.2.1
      { DNSName := "www.example.com", RecordType := "A",
        Targets := ["5.6.7.8", "bad", "7.7.7.7"], RecordTTL := 120 } []
      "www" zoneEx [.searchZones "example.com"] 0 ["5.6.7.8"] "bad" ["7.7.7.7"]
      [.searchZones "example.com",
       .putRecord 5 { Zone := 5, Name := "www", Type_ := 0, Value := "5.6.7.8", Ttl := 120 }]
      _ _ (by decide) (by decide) rfl ⟨_, by decide, rfl⟩ (by decide)⟩

end Bunny
